import Mathlib

/-!
Verification development for the music-rights explainer application
(`app.py`).  The program is a Streamlit page that loads a nested JSON
dataset (`royalties.json`), resolves a rights sub-tree from the user's
category/source/[platform]/region/role selection, draws a flow diagram
with `networkx`, and renders a rights checklist and detail list.

The Python code is shallowly embedded here:

* JSON values become the inductive type `Json` (numbers are modelled as
  integers; no claim depends on numeric values).
* Python `d[k]` on a value that is not a dict, or with a missing key,
  raises (`TypeError` / `KeyError`); this is modelled by `Json.index`
  returning `none`.  `d.get(k, default)` raises `AttributeError` on a
  non-dict and otherwise never fails; this is `Json.getAttr`, which
  returns `none` exactly on a non-dict receiver.
* Fallible functions return `Option`; a `none` result models an uncaught
  Python exception.
* `networkx.DiGraph` plus the `node_positions` / `node_colors` dicts
  become `GState`; dict writes are modelled as an append-only list of
  writes, read through `lookupLast` (last write wins, exactly like a
  Python dict update).
-/

/-- JSON values as consumed by the application.  Numbers are modelled as
integers; no claim depends on the numeric value of a field. -/
inductive Json where
  | null
  | bool (b : Bool)
  | num (n : Int)
  | str (s : String)
  | arr (elems : List Json)
  | obj (fields : List (String × Json))

/-- First-match association lookup on the fields of a JSON object.
`json.load` guarantees unique keys, so first match equals Python dict
lookup. -/
def assocJ : List (String × Json) → String → Option Json
  | [], _ => none
  | (k, v) :: rest, key => if k = key then some v else assocJ rest key

/-- Python `isinstance(x, dict)`. -/
def Json.isObj : Json → Bool
  | .obj _ => true
  | _ => false

/-- Python `d[k]`: `none` models the `TypeError`/`KeyError` raised when the
receiver is not a dict or the key is missing. -/
def Json.index : Json → String → Option Json
  | .obj l, k => assocJ l k
  | _, _ => none

/-- Python `d.get(k, default)`: `none` models the `AttributeError` raised
when the receiver is not a dict; on a dict it never fails. -/
def Json.getAttr : Json → String → Json → Option Json
  | .obj l, k, d => some ((assocJ l k).getD d)
  | _, _, _ => none

/-- The empty Python dict `{}`. -/
def Json.emptyObj : Json := Json.obj []

/-- Python truthiness of a JSON value (`if value:`). -/
def Json.truthy : Json → Bool
  | .null => false
  | .bool b => b
  | .num n => n != 0
  | .str s => s != ""
  | .arr xs => !xs.isEmpty
  | .obj l => !l.isEmpty

/-- Python `str(x)` view used where the code calls string methods: `some`
on strings, `none` (an `AttributeError`) otherwise. -/
def asStr : Json → Option String
  | .str s => some s
  | _ => none

/-- Python `s.lower()` (the dataset keys are ASCII). -/
def pyLower (s : String) : String := String.mk (s.toList.map Char.toLower)

/-- Python `s.replace(" ", "_")` — a single-character replacement is a
character-wise map. -/
def pyReplaceSpace (s : String) : String :=
  String.mk (s.toList.map (fun c => if c = ' ' then '_' else c))

/-- Python `s.strip()`. -/
def pyStrip (s : String) : String :=
  String.mk (((s.toList.dropWhile Char.isWhitespace).reverse.dropWhile
    Char.isWhitespace).reverse)

/-- Python `s.startswith(p)`. -/
def pyStartsWith (s p : String) : Bool := p.toList.isPrefixOf s.toList

example : pyLower "TikTok" = "tiktok" := by decide
example : pyReplaceSpace "sync fees" = "sync_fees" := by decide
example : pyStrip "  PRO  " = "PRO" := by decide
example : pyStartsWith "❌ none" "❌" = true := by decide
example : assocJ [("a", Json.num 1)] "b" = none := rfl

/-! ### Dataset loader (`load_json`, app.py lines 12-26) -/

/-- Outcome of `open("royalties.json")` + `json.load`: the file-system
effect of `load_json`, abstracted as a parameter. -/
inductive LoadOutcome where
  | fileNotFound
  | decodeError
  | parsed (j : Json)

/-- The two exception classes that the `try` block of `load_json` can
receive from `open`/`json.load`. -/
inductive PyExc where
  | fileNotFoundError
  | jsonDecodeError

/-- The body of the `try` block up to `json.load`: raises
`FileNotFoundError` or `json.JSONDecodeError`, or produces the parsed
value. -/
def open_and_parse : LoadOutcome → Except PyExc Json
  | .fileNotFound => .error .fileNotFoundError
  | .decodeError => .error .jsonDecodeError
  | .parsed j => .ok j

def msg_root : String := "Invalid JSON structure: Expected a dictionary at the root."
def msg_not_found : String :=
  "Error: royalties.json file not found. Ensure it's in the correct directory."
def msg_bad_json : String := "Error: royalties.json contains invalid JSON formatting."

/-- `load_json` (app.py lines 12-26).  The result carries the returned
dataset together with the list of `st.error` messages emitted; a
remaining `.error` would model an exception escaping the function. -/
def load_json (o : LoadOutcome) : Except PyExc (Json × List String) :=
  match open_and_parse o with
  | .ok data =>
      if data.isObj then .ok (data, [])
      else .ok (Json.obj [], [msg_root])
  | .error .fileNotFoundError => .ok (Json.obj [], [msg_not_found])
  | .error .jsonDecodeError => .ok (Json.obj [], [msg_bad_json])

/-! ### Label formatter (`friendly_text`, app.py lines 40-69) -/

def friendly_map : List (String × String) := [
  ("interactive_dsp", "Interactive DSP"),
  ("traditional_digital", "Traditional Digital"),
  ("non_interactive_services", "Non-Interactive Services"),
  ("digital_downloads", "Digital Downloads"),
  ("ugc", "User-Generated Content"),
  ("non_digital", "Non-Digital"),
  ("artist_label", "Artist/Label"),
  ("writer_publisher", "Writer/Publisher"),
  ("us", "US"),
  ("international", "International"),
  ("recording_revenues", "Recording Revenues"),
  ("neighboring_rights", "Neighboring Rights"),
  ("performance", "Performance Rights"),
  ("mechanical", "Mechanical Rights"),
  ("sync_fees", "Sync Fees"),
  ("broadcast_radio_tv", "Broadcast Radio & TV"),
  ("restaurants_bars_venues", "Restaurants, Bars & Venues"),
  ("live_performances", "Live Performances"),
  ("physical_sales", "Physical Sales"),
  ("organic", "Organic"),
  ("official_library", "Official Library"),
  ("youtube", "YouTube"),
  ("meta", "Meta"),
  ("tiktok", "TikTok"),
  ("snapchat", "Snapchat"),
  ("twitch", "Twitch")]

/-- First-match lookup in a string association list. -/
def assocS : List (String × String) → String → Option String
  | [], _ => none
  | (k, v) :: rest, key => if k = key then some v else assocS rest key

/-- `friendly_text` (app.py lines 40-69): `mapping.get(key.lower(), key)`. -/
def friendly_text (key : String) : String :=
  (assocS friendly_map (pyLower key)).getD key

/-! ### Usage-explainer key and lookup (app.py lines 284-295) -/

/-- The region-specific explainer key (app.py lines 284-289). -/
def usage_key (region role : String) : String :=
  if pyLower region = "us" then "us_usage_explainer_" ++ role
  else if pyLower region = "international" then "int_usage_explainer_" ++ role
  else pyLower region ++ "_usage_explainer_" ++ role

/-- The usage-explainer lookup (app.py lines 291-295): in the platform
node for ugc, in the source node otherwise, defaulting to the literal
fallback string. -/
def usage_text (royalty : Json) (category subcategory platform region role : String) :
    Option Json :=
  if pyLower category = "ugc" then
    match royalty.index category with
    | none => none
    | some c =>
      match c.index subcategory with
      | none => none
      | some s =>
        match s.index platform with
        | none => none
        | some p => p.getAttr (usage_key region role) (Json.str "No usage explainer available.")
  else
    match royalty.index category with
    | none => none
    | some c =>
      match c.index subcategory with
      | none => none
      | some s => s.getAttr (usage_key region role) (Json.str "No usage explainer available.")

/-! ### Rights-path resolution (`get_rights_data`, app.py lines 156-189,
and the module-level lookup, app.py lines 273-278) -/

/-- One element of the `master_list` / `publishing_list` built by
`get_rights_data` (app.py lines 177-184). -/
structure Entry where
  right : String
  fully_not_applicable : Json
  collectedBy : Json
  howReceived : Json
  estRate : Json
  howCalculated : Json

/-- Builds the dict of app.py lines 177-184 from a right's info dict. -/
def mkEntry (right_key : String) (right_info : List (String × Json)) : Entry :=
  { right := right_key
    fully_not_applicable := (assocJ right_info "fully_not_applicable").getD Json.null
    collectedBy := (assocJ right_info "collected_by").getD (Json.str "")
    howReceived := (assocJ right_info "how_it_is_received").getD (Json.str "")
    estRate := (assocJ right_info "estimated_rate").getD (Json.num 0)
    howCalculated := (assocJ right_info "how_it_is_calculated").getD (Json.str "") }

/-- The inner double loop of `get_rights_data` (app.py lines 171-188):
partitions the rights of a region node into the artist/label and
writer/publisher lists, skipping non-dict role and right values. -/
def collectEntries (data_node : List (String × Json)) : List Entry × List Entry :=
  data_node.foldl
    (fun acc rolePair =>
      match rolePair.2 with
      | .obj rights =>
        rights.foldl
          (fun acc2 rightPair =>
            match rightPair.2 with
            | .obj info =>
              if rolePair.1 = "artist_label" then (acc2.1 ++ [mkEntry rightPair.1 info], acc2.2)
              else if rolePair.1 = "writer_publisher" then (acc2.1, acc2.2 ++ [mkEntry rightPair.1 info])
              else acc2
            | _ => acc2)
          acc
      | _ => acc)
    ([], [])

/-- `if not isinstance(data_node, dict): return master_list, publishing_list`
(app.py lines 168-169) followed by the double loop. -/
def entriesOf : Json → List Entry × List Entry
  | .obj l => collectEntries l
  | _ => ([], [])

/-- `get_rights_data` (app.py lines 156-189).  The ugc branch indexes
`ROYALTY_DATA[area][usage_type]` directly and then descends with
defaulting `.get` calls; the other branch uses defaulting `.get` at every
level.  `none` models an uncaught exception. -/
def get_rights_data (royalty : Json) (area usage_type location : String)
    (platform : Option String) : Option (List Entry × List Entry) :=
  if pyLower area = "ugc" then
    match platform with
    | none => some ([], [])
    | some p =>
      if p = "" then some ([], [])
      else
        match royalty.index area with
        | none => none
        | some a =>
          match a.index usage_type with
          | none => none
          | some u =>
            match u.getAttr p Json.emptyObj with
            | none => none
            | some pn =>
              match pn.getAttr location Json.emptyObj with
              | none => none
              | some dn => some (entriesOf dn)
  else
    match royalty.getAttr area Json.emptyObj with
    | none => none
    | some a =>
      match a.getAttr usage_type Json.emptyObj with
      | none => none
      | some u =>
        match u.getAttr location Json.emptyObj with
        | none => none
        | some dn => some (entriesOf dn)

/-- The module-level rights lookup feeding the flowchart (app.py lines
273-278): every level is a direct index except the final `.get(role, {})`
of the ugc branch.  `none` models an uncaught `KeyError`/`TypeError`. -/
def module_rights (royalty : Json) (category subcategory platform region role : String) :
    Option Json :=
  if pyLower category = "ugc" then
    match royalty.index category with
    | none => none
    | some c =>
      match c.index subcategory with
      | none => none
      | some s =>
        match s.index platform with
        | none => none
        | some p =>
          match p.index region with
          | none => none
          | some r => r.getAttr role Json.emptyObj
  else
    match royalty.index category with
    | none => none
    | some c =>
      match c.index subcategory with
      | none => none
      | some s =>
        match s.index region with
        | none => none
        | some r => r.index role

/-! ### Flow-diagram builder (`generate_flowchart`, app.py lines 74-151)

The graph, the `node_positions` dict and the `node_colors` dict are one
state.  Python dict assignments are modelled as an append-only list of
writes read back through `lookupLast` (last write wins). -/

/-- Last-write-wins lookup, the read on a Python dict that has been
assigned several times. -/
def lookupLast {α : Type} (xs : List (String × α)) (k : String) : Option α :=
  xs.foldl (fun acc p => if p.1 = k then some p.2 else acc) none

/-- The `networkx.DiGraph` together with the `node_positions` and
`node_colors` dicts of `generate_flowchart`. -/
structure GState where
  nodes : List String
  edges : List (String × String)
  colors : List (String × String)
  positions : List (String × (Int × Int))

/-- `G.add_node(n)`: a no-op when the node exists. -/
def add_node (st : GState) (n : String) : GState :=
  if n ∈ st.nodes then st else { st with nodes := st.nodes ++ [n] }

/-- `G.add_edge(a, b)`: adds the endpoints when missing, then the edge
when missing. -/
def add_edge (st : GState) (a b : String) : GState :=
  let st1 := add_node (add_node st a) b
  if (a, b) ∈ st1.edges then st1 else { st1 with edges := st1.edges ++ [(a, b)] }

/-- `node_colors[n] = c`. -/
def setColor (st : GState) (n c : String) : GState :=
  { st with colors := st.colors ++ [(n, c)] }

/-- `node_positions[n] = p`. -/
def setPos (st : GState) (n : String) (p : Int × Int) : GState :=
  { st with positions := st.positions ++ [(n, p)] }

def x_offset : Int := 2
def y_offset : Int := 2
def source_color : String := "lightblue"

/-- `mid_y = -((num_rights - 1) * y_offset) / 2` (app.py line 87); the
numerator is even, so integer division is exact. -/
def midY (num_rights : Nat) : Int := -(((num_rights : Int) - 1) * y_offset) / 2

/-- The state after app.py lines 90-93: source node added, colored
`lightblue`, placed at `(0, mid_y)`. -/
def initState (source : String) (mid : Int) : GState :=
  { nodes := [source]
    edges := []
    colors := [(source, source_color)]
    positions := [(source, (0, mid))] }

/-- `details.get(k, "")` followed by `.strip()`-ability: `some` when the
field (or its default) is a string, `none` (an `AttributeError`)
otherwise. -/
def getStrField (info : List (String × Json)) (k : String) : Option String :=
  asStr ((assocJ info k).getD (Json.str ""))

/-- One iteration of the loop over `rights.items()` (app.py lines
96-133).  Non-dict details are skipped (line 97-98); `none` models the
`AttributeError` of `.strip()` on a non-string field. -/
def processRight (source role : String) (mid : Int) (i : Nat) (st : GState)
    (e : String × Json) : Option GState :=
  match e.2 with
  | .obj info =>
    match getStrField info "collected_by", getStrField info "payee" with
    | some cb0, some py0 =>
      let collected_by := pyStrip cb0
      let payeeStripped := pyStrip py0
      let is_not_applicable := (assocJ info "fully_not_applicable").isSome
      let payee := if payeeStripped = "" then role else payeeStripped
      let right := e.1
      let right_x := x_offset
      let right_y : Int := -(i : Int) * y_offset
      let st1 := setPos (setColor (add_edge (add_node st right) source right)
        right (if is_not_applicable then "red" else source_color)) right (right_x, right_y)
      if is_not_applicable then some st1
      else
        let collected_by_x := right_x + x_offset
        let payee_x := collected_by_x + x_offset
        let st2 :=
          if collected_by = "" then st1
          else setPos (setColor (add_edge st1 right collected_by) collected_by source_color)
            collected_by (collected_by_x, right_y)
        let st3 :=
          if payee = "" then st2
          else setPos (setColor
            (add_edge (add_node st2 payee) (if collected_by = "" then right else collected_by) payee)
            payee source_color) payee (payee_x, mid)
        some st3
    | _, _ => none
  | _ => some st

/-- `for i, (right, details) in enumerate(rights.items())` (app.py line 96). -/
def foldRights (source role : String) (mid : Int) : GState → Nat → List (String × Json) →
    Option GState
  | st, _, [] => some st
  | st, i, e :: rest =>
    match processRight source role mid i st e with
    | none => none
    | some st2 => foldRights source role mid st2 (i + 1) rest

/-- The outcome of `generate_flowchart`: the reported error of app.py
lines 75-77, or the built graph state. -/
inductive FlowResult where
  | error (msg : String)
  | graph (g : GState)

/-- The error message of app.py line 76. -/
def missing_msg (source region role : String) : String :=
  "Unexpected or missing rights data for " ++ friendly_text role ++ " in " ++
    friendly_text region ++ " for " ++ friendly_text source ++ ". Skipping flowchart."

/-- `generate_flowchart` (app.py lines 74-133; the matplotlib rendering of
lines 135-151 consumes the state and is outside the model).  `none`
models an uncaught exception inside the rights loop. -/
def generate_flowchart (source region role : String) (rights : Json) : Option FlowResult :=
  match rights with
  | .obj l =>
    if l.isEmpty then some (.error (missing_msg source region role))
    else
      (foldRights source role (midY l.length) (initState source (midY l.length)) 0 l).map
        FlowResult.graph
  | _ => some (.error (missing_msg source region role))

/-! Observers on a flowchart outcome, used to state concrete facts. -/

def nodesOfResult : Option FlowResult → Option (List String)
  | some (.graph g) => some g.nodes
  | _ => none

def edgesOfResult : Option FlowResult → Option (List (String × String))
  | some (.graph g) => some g.edges
  | _ => none

def posOfResult (r : Option FlowResult) (n : String) : Option (Int × Int) :=
  match r with
  | some (.graph g) => lookupLast g.positions n
  | _ => none

def colorOfResult (r : Option FlowResult) (n : String) : Option String :=
  match r with
  | some (.graph g) => lookupLast g.colors n
  | _ => none

def errorOfResult : Option FlowResult → Option String
  | some (.error m) => some m
  | _ => none

/-! ### Rights-table builder (`create_rights_table`, app.py lines 191-211) -/

/-- The `right_mapping` dict of app.py lines 193-199. -/
def right_mapping : List (String × String) := [
  ("recording_revenues", friendly_text "recording_revenues"),
  ("neighboring_rights", friendly_text "neighboring_rights"),
  ("performance", friendly_text "performance"),
  ("mechanical", friendly_text "mechanical"),
  ("sync_fees", friendly_text "sync_fees")]

/-- `raw_key = entry["Right"].lower().replace(" ", "_")` followed by
`display_key = right_mapping.get(raw_key, friendly_text(raw_key))`
(app.py lines 201-202). -/
def displayKey (rightName : String) : String :=
  let raw := pyReplaceSpace (pyLower rightName)
  (assocS right_mapping raw).getD (friendly_text raw)

/-- One iteration of the entry loop (app.py lines 200-206), updating the
`rights_status` write list.  `none` models the `AttributeError` of
`.startswith` on a truthy non-string `Collected By`. -/
def crtStep (acc : List (String × String)) (e : Entry) : Option (List (String × String)) :=
  let dk := displayKey e.right
  if e.fully_not_applicable.truthy then some acc
  else if !e.collectedBy.truthy then some acc
  else
    match asStr e.collectedBy with
    | some s => if pyStartsWith s "❌" then some acc else some (acc ++ [(dk, "✅")])
    | none => none

/-- The entry loop of `create_rights_table`. -/
def crtFold : List (String × String) → List Entry → Option (List (String × String))
  | acc, [] => some acc
  | acc, e :: rest =>
    match crtStep acc e with
    | none => none
    | some acc2 => crtFold acc2 rest

/-- `[rights_status[r] for r in rights_of_interest]` (app.py line 209):
reads each right of interest back out of the status dict, in the
caller-supplied order. -/
def buildRows (w : List (String × String)) : List String → Option (List (String × String))
  | [] => some []
  | r :: rest =>
    match lookupLast w r with
    | none => none
    | some v => (buildRows w rest).map (fun t => (r, v) :: t)

/-- `create_rights_table` (app.py lines 191-211): the resulting DataFrame
as its list of (right, applicable-mark) rows. -/
def create_rights_table (data_list : List Entry) (rights_of_interest : List String) :
    Option (List (String × String)) :=
  let init := rights_of_interest.map (fun r => (r, "❌"))
  match crtFold init data_list with
  | none => none
  | some w => buildRows w rights_of_interest

/-! ### Derived label functions on a rights entry

These read off, from a `(right, details)` pair, the labels that its loop
iteration writes positions/colors for; they are used to state which graph
nodes an iteration can touch. -/

/-- The string value of `details.get(k, "")`, with `""` standing in for
the non-string case (in which `processRight` faults and no state is
produced). -/
def strFieldD (info : List (String × Json)) (k : String) : String :=
  match (assocJ info k).getD (Json.str "") with
  | .str s => s
  | _ => ""

/-- The stripped `collected_by` label of an entry (empty when absent). -/
def cbLabelOf (e : String × Json) : String :=
  match e.2 with
  | .obj info => pyStrip (strFieldD info "collected_by")
  | _ => ""

/-- The effective payee label of an entry: the stripped `payee` field, or
the role when that is empty. -/
def payeeEff (role : String) (e : String × Json) : String :=
  match e.2 with
  | .obj info =>
    let p := pyStrip (strFieldD info "payee")
    if p = "" then role else p
  | _ => ""

/-- Whether the entry's details form a dict carrying the
`fully_not_applicable` marker. -/
def isNAEntry (e : String × Json) : Bool :=
  match e.2 with
  | .obj info => (assocJ info "fully_not_applicable").isSome
  | _ => false

/-- Whether the entry's details form a dict without the marker. -/
def isApplicableEntry (e : String × Json) : Bool :=
  match e.2 with
  | .obj info => (assocJ info "fully_not_applicable").isNone
  | _ => false

/-- The collector/payee labels whose positions and colors the entry's
iteration writes (empty for an inapplicable or skipped entry). -/
def cbPayeeLabels (role : String) (e : String × Json) : List String :=
  match e.2 with
  | .obj _ =>
    if isNAEntry e then []
    else (if cbLabelOf e = "" then [] else [cbLabelOf e]) ++
      (if payeeEff role e = "" then [] else [payeeEff role e])
  | _ => []

/-- All labels whose positions and colors the entry's iteration writes. -/
def entryLabels (role : String) (e : String × Json) : List String :=
  match e.2 with
  | .obj _ => e.1 :: cbPayeeLabels role e
  | _ => []

/-! ### Concrete inputs used by counterexamples and witnesses -/

/-- The spec's inapplicable-right example node. -/
def rightsSync : Json :=
  Json.obj [("sync_fees", Json.obj [("fully_not_applicable", Json.str "not tracked digitally")])]

/-- The spec's empty-payee example node. -/
def rightsMech : Json :=
  Json.obj [("mechanical", Json.obj [("collected_by", Json.str "PRO"), ("payee", Json.str "")])]

/-- Two ordinary rights; pins down the diagram geometry. -/
def rightsTwo : Json := Json.obj [
  ("performance", Json.obj [("collected_by", Json.str "PRO"), ("payee", Json.str "Artist")]),
  ("mechanical", Json.obj [("collected_by", Json.str "HFA"), ("payee", Json.str "Publisher")])]

/-- Two rights with a non-dict entry between them. -/
def rightsMix : Json := Json.obj [
  ("performance", Json.obj [("collected_by", Json.str "PRO"), ("payee", Json.str "Artist")]),
  ("bad_right", Json.str "oops"),
  ("mechanical", Json.obj [("collected_by", Json.str "HFA"), ("payee", Json.str "Publisher")])]

/-- An inapplicable right whose name recurs as a later right's collector. -/
def rightsRecolor : Json := Json.obj [
  ("sync_fees", Json.obj [("fully_not_applicable", Json.str "n")]),
  ("performance", Json.obj [("collected_by", Json.str "sync_fees"), ("payee", Json.str "p")])]

/-- A right whose `payee` field is whitespace only. -/
def rightsWs : Json :=
  Json.obj [("mechanical", Json.obj [("collected_by", Json.str "PRO"), ("payee", Json.str " ")])]

/-- A right info dict whose `fully_not_applicable` field is present but
holds the empty string. -/
def infoC2 : List (String × Json) :=
  [("fully_not_applicable", Json.str ""), ("collected_by", Json.str "PRO")]

/-- A right info dict whose `collected_by` starts with the ❌ sentinel. -/
def infoC3 : List (String × Json) := [("collected_by", Json.str "❌ Not collected digitally")]

/-- A dataset in which the selection (non_digital, physical_sales, us,
artist_label) walks keys that all exist except the role. -/
def royC1 : Json := Json.obj [("non_digital", Json.obj [("physical_sales",
  Json.obj [("us", Json.obj [("other_role", Json.obj [])])])])]

/-- A ugc dataset down to a region node that lacks both canonical
roles. -/
def royUgc : Json := Json.obj [("ugc", Json.obj [("organic", Json.obj [("youtube",
  Json.obj [("us", Json.obj [("other_role", Json.obj [])])])])])]

/-- A dataset carrying region-specific explainers next to generic
explainer keys that must be ignored. -/
def royC4 : Json := Json.obj [
  ("ugc", Json.obj [("organic", Json.obj [("youtube", Json.obj [
    ("usage_explainer", Json.str "generic"),
    ("us_usage_explainer_artist_label", Json.str "ugc us text")])])]),
  ("non_digital", Json.obj [("physical_sales", Json.obj [
    ("usage_explainer_artist_label", Json.str "generic2")])])]

/-- A right collected by nobody, with an explicit payee. -/
def rightsNoCb : Json := Json.obj [("sync_fees", Json.obj [("payee", Json.str "Artist")])]

/-- The graph of a built flowchart outcome (the empty state on an error
or a fault); lets witnesses name the concrete graph a run produced. -/
def graphOf : Option FlowResult → GState
  | some (.graph g) => g
  | _ => { nodes := [], edges := [], colors := [], positions := [] }

/-! ### Infrastructure lemmas: last-write-wins lookup -/

/-- Right-biased choice, the shape of a last-write-wins read. -/
def orD {α : Type} (x y : Option α) : Option α :=
  match x with
  | some v => some v
  | none => y

theorem orD_some {α : Type} (v : α) (y : Option α) : orD (some v) y = some v := rfl

theorem orD_none {α : Type} (y : Option α) : orD none y = y := rfl

theorem lookupLast_nil {α : Type} (k : String) : lookupLast ([] : List (String × α)) k = none := rfl

theorem lookupLast_foldl {α : Type} (k : String) (b : List (String × α)) :
    ∀ acc : Option α,
      b.foldl (fun a q => if q.1 = k then some q.2 else a) acc = orD (lookupLast b k) acc := by
  induction b with
  | nil => intro acc; simp [lookupLast, orD]
  | cons p rest ih =>
    intro acc
    have hcons : lookupLast (p :: rest) k =
        orD (lookupLast rest k) (if p.1 = k then some p.2 else none) := by
      simpa [lookupLast] using ih (if p.1 = k then some p.2 else none)
    simp only [List.foldl_cons]
    rw [ih (if p.1 = k then some p.2 else acc), hcons]
    cases h : lookupLast rest k with
    | some v => simp [orD]
    | none => by_cases hp : p.1 = k <;> simp [orD, hp]

theorem lookupLast_append {α : Type} (a b : List (String × α)) (k : String) :
    lookupLast (a ++ b) k = orD (lookupLast b k) (lookupLast a k) := by
  simp only [lookupLast, List.foldl_append]
  exact lookupLast_foldl k b (lookupLast a k)

theorem lookupLast_snoc_same {α : Type} (xs : List (String × α)) (k : String) (v : α) :
    lookupLast (xs ++ [(k, v)]) k = some v := by
  rw [lookupLast_append]; simp [lookupLast, orD]

theorem lookupLast_snoc_ne {α : Type} (xs : List (String × α)) (k k' : String) (v : α)
    (h : k' ≠ k) : lookupLast (xs ++ [(k', v)]) k = lookupLast xs k := by
  rw [lookupLast_append]; simp [lookupLast, orD, h]

theorem lookupLast_eq_none {α : Type} (xs : List (String × α)) (k : String)
    (h : ∀ p ∈ xs, p.1 ≠ k) : lookupLast xs k = none := by
  induction xs with
  | nil => rfl
  | cons p rest ih =>
    have hcons : lookupLast (p :: rest) k =
        orD (lookupLast rest k) (if p.1 = k then some p.2 else none) := by
      simpa [lookupLast] using lookupLast_foldl k rest (if p.1 = k then some p.2 else none)
    rw [hcons, ih (fun q hq => h q (List.mem_cons_of_mem p hq))]
    simp [orD, h p (List.mem_cons_self p rest)]

theorem lookupLast_mem {α : Type} (xs : List (String × α)) (k : String) (v : α)
    (h : lookupLast xs k = some v) : (k, v) ∈ xs := by
  induction xs with
  | nil => simp [lookupLast] at h
  | cons p rest ih =>
    have hcons : lookupLast (p :: rest) k =
        orD (lookupLast rest k) (if p.1 = k then some p.2 else none) := by
      simpa [lookupLast] using lookupLast_foldl k rest (if p.1 = k then some p.2 else none)
    rw [hcons] at h
    cases hr : lookupLast rest k with
    | some w =>
      rw [hr] at h
      simp only [orD] at h
      cases h
      exact List.mem_cons_of_mem p (ih hr)
    | none =>
      rw [hr] at h
      simp only [orD] at h
      by_cases hp : p.1 = k
      · simp only [hp, if_pos rfl] at h
        cases h
        have : p = (k, p.2) := by
          cases p with
          | mk a b => simp at hp; simp [hp]
        rw [← this]
        exact List.mem_cons_self p rest
      · simp [hp] at h

theorem lookupLast_isSome_of_mem {α : Type} (xs : List (String × α)) (k : String) (v : α)
    (h : (k, v) ∈ xs) : (lookupLast xs k).isSome = true := by
  induction xs with
  | nil => simp at h
  | cons p rest ih =>
    have hcons : lookupLast (p :: rest) k =
        orD (lookupLast rest k) (if p.1 = k then some p.2 else none) := by
      simpa [lookupLast] using lookupLast_foldl k rest (if p.1 = k then some p.2 else none)
    rw [hcons]
    rcases List.mem_cons.mp h with h1 | h2
    · cases hr : lookupLast rest k with
      | some w => simp [orD]
      | none => rw [← h1]; simp [orD]
    · have hsome := ih h2
      cases hr : lookupLast rest k with
      | some w => simp [orD]
      | none => rw [hr] at hsome; simp at hsome

theorem lookupLast_const_map (roi : List String) (r : String) (c : String)
    (h : r ∈ roi) : lookupLast (roi.map (fun x => (x, c))) r = some c := by
  induction roi with
  | nil => simp at h
  | cons x rest ih =>
    have hcons : lookupLast ((x, c) :: rest.map (fun x => (x, c))) r =
        orD (lookupLast (rest.map (fun x => (x, c))) r)
          (if x = r then some c else none) := by
      simpa [lookupLast] using
        lookupLast_foldl r (rest.map (fun x => (x, c))) (if x = r then some c else none)
    simp only [List.map_cons]
    rw [hcons]
    rcases List.mem_cons.mp h with h1 | h2
    · cases hr : lookupLast (rest.map (fun x => (x, c))) r with
      | some w =>
        have := lookupLast_mem _ _ _ hr
        simp only [List.mem_map] at this
        obtain ⟨y, _, hy⟩ := this
        cases hy
        simp [orD]
      | none => simp [orD, h1]
    · rw [ih h2]; simp [orD]

/-! ### Claim C9: the dataset loader fails softly -/

/-- C9: `load_json` handles all three load-error conditions — missing
file, invalid JSON syntax, and a non-dict root — by returning an empty
dataset together with exactly one reported error message, and never lets
an exception escape in any case. -/
theorem claim_C9_load_json (o : LoadOutcome) :
    (∃ p, load_json o = .ok p) ∧
    (o = .fileNotFound → load_json o = .ok (Json.obj [], [msg_not_found])) ∧
    (o = .decodeError → load_json o = .ok (Json.obj [], [msg_bad_json])) ∧
    (∀ j, o = .parsed j → j.isObj = false → load_json o = .ok (Json.obj [], [msg_root])) := by
  refine ⟨?_, ?_, ?_, ?_⟩
  · cases o with
    | fileNotFound => exact ⟨_, rfl⟩
    | decodeError => exact ⟨_, rfl⟩
    | parsed j =>
      by_cases h : j.isObj
      · exact ⟨(j, []), by simp [load_json, open_and_parse, h]⟩
      · exact ⟨(Json.obj [], [msg_root]), by simp [load_json, open_and_parse, h]⟩
  · intro h; subst h; rfl
  · intro h; subst h; rfl
  · intro j h hobj; subst h; simp [load_json, open_and_parse, hobj]

/-- C9 witness: the three error outcomes at concrete inputs. -/
theorem claim_C9_witness :
    load_json (LoadOutcome.parsed (Json.num 3)) = .ok (Json.obj [], [msg_root]) ∧
    load_json .fileNotFound = .ok (Json.obj [], [msg_not_found]) ∧
    load_json .decodeError = .ok (Json.obj [], [msg_bad_json]) :=
  ⟨(claim_C9_load_json _).2.2.2 (Json.num 3) rfl rfl,
   (claim_C9_load_json _).2.1 rfl,
   (claim_C9_load_json _).2.2.1 rfl⟩

/-! ### Claim C4: the usage-explainer key and lookup -/

/-- C4: the explainer key is `us_usage_explainer_<role>` when the
lower-cased region is "us", `int_usage_explainer_<role>` when it is
"international", and `<lower(region)>_usage_explainer_<role>` otherwise;
the key is looked up in the platform node for ugc and in the source node
otherwise, and an absent key yields the literal fallback string with no
fallback to any generic key. -/
theorem claim_C4_usage_explainer (royalty : Json)
    (category subcategory platform region role : String) :
    (pyLower region = "us" → usage_key region role = "us_usage_explainer_" ++ role) ∧
    (pyLower region = "international" →
      usage_key region role = "int_usage_explainer_" ++ role) ∧
    (pyLower region ≠ "us" → pyLower region ≠ "international" →
      usage_key region role = pyLower region ++ "_usage_explainer_" ++ role) ∧
    (∀ c s p, pyLower category = "ugc" → royalty.index category = some c →
      c.index subcategory = some s → s.index platform = some (Json.obj p) →
      usage_text royalty category subcategory platform region role =
        some ((assocJ p (usage_key region role)).getD
          (Json.str "No usage explainer available."))) ∧
    (∀ c sl, pyLower category ≠ "ugc" → royalty.index category = some c →
      c.index subcategory = some (Json.obj sl) →
      usage_text royalty category subcategory platform region role =
        some ((assocJ sl (usage_key region role)).getD
          (Json.str "No usage explainer available."))) := by
  refine ⟨?_, ?_, ?_, ?_, ?_⟩
  · intro h; simp [usage_key, h]
  · intro h; simp [usage_key, h]
  · intro h1 h2; simp [usage_key, h1, h2]
  · intro c s p hu hc hs hp
    simp [usage_text, hu, hc, hs, hp, Json.getAttr]
  · intro c sl hu hc hs
    simp [usage_text, hu, hc, hs, Json.getAttr]

/-- C4 witness: the three key shapes at the spec's concrete inputs, the
platform-level ugc lookup, and the fallback string when only a generic
key exists. -/
theorem claim_C4_witness :
    usage_key "us" "artist_label" = "us_usage_explainer_artist_label" ∧
    usage_key "International" "writer_publisher" = "int_usage_explainer_writer_publisher" ∧
    usage_key "canada" "artist_label" = "canada_usage_explainer_artist_label" ∧
    usage_text royC4 "ugc" "organic" "youtube" "us" "artist_label" =
      some (Json.str "ugc us text") ∧
    usage_text royC4 "non_digital" "physical_sales" "" "us" "artist_label" =
      some (Json.str "No usage explainer available.") :=
  ⟨(claim_C4_usage_explainer (Json.obj []) "" "" "" "us" "artist_label").1 rfl,
   ((claim_C4_usage_explainer (Json.obj []) "" "" "" "International"
      "writer_publisher").2.1 rfl),
   ((claim_C4_usage_explainer (Json.obj []) "" "" "" "canada" "artist_label").2.2.1
      (by decide) (by decide)).trans (by decide),
   ((claim_C4_usage_explainer royC4 "ugc" "organic" "youtube" "us" "artist_label").2.2.2.1
      _ _ _ rfl rfl rfl rfl).trans rfl,
   ((claim_C4_usage_explainer royC4 "non_digital" "physical_sales" "" "us"
      "artist_label").2.2.2.2 _ _ (by decide) rfl rfl).trans rfl⟩

/-! ### Claim C5: the diagram-build error condition -/

/-- C5: `generate_flowchart` reports the missing-rights error — a message
identifying the role, the region and the source — exactly when the rights
argument is empty or not a dict, and otherwise never reports it (it
either builds a graph or, on malformed field types, faults). -/
theorem claim_C5_flowchart_error (source region role : String) (rights : Json) :
    ((rights.isObj = false ∨ rights = Json.obj []) →
      generate_flowchart source region role rights =
        some (.error ("Unexpected or missing rights data for " ++ friendly_text role ++
          " in " ++ friendly_text region ++ " for " ++ friendly_text source ++
          ". Skipping flowchart."))) ∧
    (∀ l msg, rights = Json.obj l → l ≠ [] →
      generate_flowchart source region role rights ≠ some (.error msg)) := by
  constructor
  · intro h
    cases rights with
    | obj l =>
      rcases h with h | h
      · simp [Json.isObj] at h
      · cases h
        rfl
    | null => rfl
    | bool b => rfl
    | num n => rfl
    | str s => rfl
    | arr xs => rfl
  · intro l msg hr hl
    subst hr
    cases l with
    | nil => exact absurd rfl hl
    | cons e rest =>
      cases hf : foldRights source role (midY (e :: rest).length)
          (initState source (midY (e :: rest).length)) 0 (e :: rest) with
      | none => simp [generate_flowchart, hf]
      | some g => simp [generate_flowchart, hf]

/-- C5 witness: a non-dict rights value yields the concrete message for
(organic, us, artist_label); a one-right dict never yields the error. -/
theorem claim_C5_witness :
    generate_flowchart "organic" "us" "artist_label" (Json.num 3) =
      some (.error ("Unexpected or missing rights data for Artist/Label in US for Organic" ++
        ". Skipping flowchart.")) ∧
    generate_flowchart "organic" "us" "artist_label" rightsMech ≠
      some (.error (missing_msg "organic" "us" "artist_label")) :=
  ⟨((claim_C5_flowchart_error "organic" "us" "artist_label" (Json.num 3)).1
      (Or.inl rfl)).trans rfl,
   (claim_C5_flowchart_error "organic" "us" "artist_label" rightsMech).2
      _ _ rfl (List.cons_ne_nil _ _)⟩

/-! ### Claim C1: where the rights lookups tolerate missing keys -/

/-- C1 counterexample: the claim says no missing intermediate key ever
faults.  In fact: in `royC1`, the keys non_digital → physical_sales → us
all exist (a reachable UI selection), but the role key is missing and the
module-level lookup `ROYALTY_DATA[category][subcategory][region][role]`
raises `KeyError` (modelled as `none`) instead of returning an empty
node; and `get_rights_data` on a dataset without the "ugc" key raises on
its direct `ROYALTY_DATA[area]` index. -/
theorem claim_C1_counterexample :
    (module_rights royC1 "non_digital" "physical_sales" "" "us" "artist_label").isNone = true ∧
    (get_rights_data (Json.obj []) "ugc" "organic" "us" (some "youtube")).isNone = true := by
  constructor <;> rfl

/-- C1 (amended): only the levels read with a defaulting `.get` tolerate
a missing key and yield an empty rights node: every level of the non-ugc
`get_rights_data` chain, the platform and location levels of its ugc
chain, and the role level of the ugc module-level lookup.  The remaining
levels are direct indexes and fault on a missing key. -/
theorem claim_C1_tolerant_levels (royalty : Json)
    (area usage_type location category subcategory platform region role : String)
    (platformOpt : Option String) :
    (∀ rl, pyLower area ≠ "ugc" → royalty = Json.obj rl → assocJ rl area = none →
      get_rights_data royalty area usage_type location platformOpt = some ([], [])) ∧
    (∀ rl al, pyLower area ≠ "ugc" → royalty = Json.obj rl →
      assocJ rl area = some (Json.obj al) → assocJ al usage_type = none →
      get_rights_data royalty area usage_type location platformOpt = some ([], [])) ∧
    (∀ rl al ul, pyLower area ≠ "ugc" → royalty = Json.obj rl →
      assocJ rl area = some (Json.obj al) → assocJ al usage_type = some (Json.obj ul) →
      assocJ ul location = none →
      get_rights_data royalty area usage_type location platformOpt = some ([], [])) ∧
    (∀ a ul p, pyLower area = "ugc" → royalty.index area = some a →
      a.index usage_type = some (Json.obj ul) → assocJ ul p = none → p ≠ "" →
      get_rights_data royalty area usage_type location (some p) = some ([], [])) ∧
    (∀ a ul pl p, pyLower area = "ugc" → royalty.index area = some a →
      a.index usage_type = some (Json.obj ul) → assocJ ul p = some (Json.obj pl) →
      assocJ pl location = none → p ≠ "" →
      get_rights_data royalty area usage_type location (some p) = some ([], [])) ∧
    (∀ c s pj rl2, pyLower category = "ugc" → royalty.index category = some c →
      c.index subcategory = some s → s.index platform = some pj →
      pj.index region = some (Json.obj rl2) → assocJ rl2 role = none →
      module_rights royalty category subcategory platform region role =
        some Json.emptyObj) := by
  refine ⟨?_, ?_, ?_, ?_, ?_, ?_⟩
  · intro rl h hroy ha
    subst hroy
    simp [get_rights_data, h, Json.getAttr, ha, Json.emptyObj, entriesOf, collectEntries, assocJ]
  · intro rl al h hroy ha hu
    subst hroy
    simp [get_rights_data, h, Json.getAttr, ha, hu, Json.emptyObj, entriesOf, collectEntries,
      assocJ]
  · intro rl al ul h hroy ha hu hl
    subst hroy
    simp [get_rights_data, h, Json.getAttr, ha, hu, hl, Json.emptyObj, entriesOf, collectEntries]
  · intro a ul p h ha hu hp hpne
    simp [get_rights_data, h, ha, hu, Json.getAttr, hp, hpne, Json.emptyObj, entriesOf,
      collectEntries, assocJ]
  · intro a ul pl p h ha hu hp hl hpne
    simp [get_rights_data, h, ha, hu, Json.getAttr, hp, hl, hpne, Json.emptyObj, entriesOf,
      collectEntries]
  · intro c s pj rl2 h hc hs hp hr hrole
    simp [module_rights, h, hc, hs, hp, hr, Json.getAttr, hrole, Json.emptyObj]

/-- C1 witness: each tolerated level at a concrete input — a missing
category in the non-ugc text path, a missing platform in the ugc text
path, and a missing role in the ugc module-level lookup. -/
theorem claim_C1_witness :
    get_rights_data (Json.obj []) "non_digital" "physical_sales" "us" none = some ([], []) ∧
    get_rights_data royUgc "ugc" "organic" "us" (some "vimeo") = some ([], []) ∧
    module_rights royUgc "ugc" "organic" "youtube" "us" "artist_label" = some Json.emptyObj :=
  ⟨(claim_C1_tolerant_levels (Json.obj []) "non_digital" "physical_sales" "us" "" "" "" "" ""
      none).1 [] (by decide) rfl rfl,
   (claim_C1_tolerant_levels royUgc "ugc" "organic" "us" "" "" "" "" "" (some "vimeo")).2.2.2.1
      _ _ "vimeo" rfl rfl rfl rfl (by decide),
   (claim_C1_tolerant_levels royUgc "" "" "" "ugc" "organic" "youtube" "us" "artist_label"
      none).2.2.2.2.2 _ _ _ _ rfl rfl rfl rfl rfl rfl⟩

/-! ### Checklist lemmas (`create_rights_table`) -/

theorem crtStep_cases (acc : List (String × String)) (e : Entry) (acc2 : List (String × String))
    (h : crtStep acc e = some acc2) :
    acc2 = acc ∨ (acc2 = acc ++ [(displayKey e.right, "✅")] ∧
      e.fully_not_applicable.truthy = false) := by
  unfold crtStep at h
  split at h
  · cases h; exact Or.inl rfl
  · rename_i hna
    split at h
    · cases h; exact Or.inl rfl
    · split at h
      · split at h
        · cases h; exact Or.inl rfl
        · cases h
          exact Or.inr ⟨rfl, by simpa using hna⟩
      · cases h

theorem crtFold_ext (dl : List Entry) :
    ∀ acc w, crtFold acc dl = some w →
      ∃ ext, w = acc ++ ext ∧ ∀ p ∈ ext, p.2 = "✅" ∧
        ∃ e ∈ dl, p.1 = displayKey e.right ∧ e.fully_not_applicable.truthy = false := by
  induction dl with
  | nil =>
    intro acc w h
    cases h
    exact ⟨[], by simp⟩
  | cons d rest ih =>
    intro acc w h
    unfold crtFold at h
    cases hs : crtStep acc d with
    | none => rw [hs] at h; cases h
    | some acc2 =>
      rw [hs] at h
      obtain ⟨ext, hw, hprop⟩ := ih acc2 w h
      rcases crtStep_cases acc d acc2 hs with h1 | ⟨h1, hna⟩
      · subst h1
        exact ⟨ext, hw, fun p hp =>
          ⟨(hprop p hp).1, (hprop p hp).2.imp fun e he =>
            ⟨List.mem_cons_of_mem d he.1, he.2⟩⟩⟩
      · subst h1
        refine ⟨(displayKey d.right, "✅") :: ext, by simpa using hw, ?_⟩
        intro p hp
        rcases List.mem_cons.mp hp with h2 | h2
        · subst h2
          exact ⟨rfl, d, List.mem_cons_self d rest, rfl, hna⟩
        · exact ⟨(hprop p h2).1, (hprop p h2).2.imp fun e he =>
            ⟨List.mem_cons_of_mem d he.1, he.2⟩⟩

theorem crtFold_qualified_mem (dl : List Entry) :
    ∀ acc w e s, crtFold acc dl = some w → e ∈ dl →
      e.fully_not_applicable.truthy = false → e.collectedBy = Json.str s → s ≠ "" →
      pyStartsWith s "❌" = false → (displayKey e.right, "✅") ∈ w := by
  induction dl with
  | nil => intro acc w e s h he; simp at he
  | cons d rest ih =>
    intro acc w e s h he hna hcb hs hx
    unfold crtFold at h
    cases hstep : crtStep acc d with
    | none => rw [hstep] at h; cases h
    | some acc2 =>
      rw [hstep] at h
      rcases List.mem_cons.mp he with h1 | h1
      · subst h1
        have hacc2 : acc2 = acc ++ [(displayKey e.right, "✅")] := by
          unfold crtStep at hstep
          rw [hna] at hstep
          simp only [Bool.false_eq_true, if_false] at hstep
          rw [hcb] at hstep
          have htr : (Json.str s).truthy = true := by
            simp [Json.truthy, hs]
          rw [htr] at hstep
          simp only [Bool.not_true, Bool.false_eq_true, if_false, asStr] at hstep
          rw [hx] at hstep
          simp only [Bool.false_eq_true, if_false] at hstep
          cases hstep
          rfl
        subst hacc2
        obtain ⟨ext, hw, _⟩ := crtFold_ext rest _ w h
        subst hw
        exact List.mem_append_left _ (List.mem_append_right _ (List.mem_singleton.mpr rfl))
      · exact ih acc2 w e s h h1 hna hcb hs hx

theorem buildRows_spec (w : List (String × String)) :
    ∀ roi t, buildRows w roi = some t →
      t.map Prod.fst = roi ∧ ∀ p ∈ t, lookupLast w p.1 = some p.2 := by
  intro roi
  induction roi with
  | nil => intro t h; cases h; exact ⟨rfl, by simp⟩
  | cons r rest ih =>
    intro t h
    unfold buildRows at h
    cases hl : lookupLast w r with
    | none => rw [hl] at h; cases h
    | some v =>
      rw [hl] at h
      cases hb : buildRows w rest with
      | none => rw [hb] at h; cases h
      | some t2 =>
        rw [hb] at h
        simp only [Option.map_some] at h
        cases h
        obtain ⟨hmap, hall⟩ := ih t2 hb
        refine ⟨by simp [hmap], ?_⟩
        intro p hp
        rcases List.mem_cons.mp hp with h2 | h2
        · subst h2; exact hl
        · exact hall p h2

/-! ### Claim C2: not-applicable entries in the checklist -/

/-- C2 counterexample: the claim says any entry with the
`fully_not_applicable` field set is marked absent regardless of
`collected_by`.  But the code tests the field's truthiness, so an entry
whose source dict carries the field with an empty-string value (see
`infoC2`, where the field is present) is still marked present when its
`collected_by` is non-empty. -/
theorem claim_C2_counterexample :
    create_rights_table [mkEntry "mechanical" infoC2] ["Mechanical Rights"] =
      some [("Mechanical Rights", "✅")] ∧
    (assocJ infoC2 "fully_not_applicable").isSome = true := by
  constructor <;> rfl

/-- C2 (amended): an entry whose `fully_not_applicable` value is truthy
is skipped and contributes no mark; a canonical right of interest is
shown absent (❌) whenever every matching entry has a truthy
`fully_not_applicable`, regardless of their `collected_by` values.  A
falsy marker value (e.g. the empty string) does not count, and a single
marked entry does not force ❌ when another matching entry is
applicable. -/
theorem claim_C2_na_absent (dl : List Entry) (roi : List String) (r : String)
    (t : List (String × String)) (hc : create_rights_table dl roi = some t)
    (hr : r ∈ roi)
    (hall : ∀ e ∈ dl, displayKey e.right = r → e.fully_not_applicable.truthy = true) :
    ∀ p ∈ t, p.1 = r → p.2 = "❌" := by
  intro p hp hpr
  simp only [create_rights_table] at hc
  cases hw : crtFold (roi.map fun r => (r, "❌")) dl with
  | none => rw [hw] at hc; cases hc
  | some w =>
    rw [hw] at hc
    have hrow := (buildRows_spec w roi t hc).2 p hp
    rw [hpr] at hrow
    obtain ⟨ext, hwe, hprop⟩ := crtFold_ext dl _ w hw
    subst hwe
    rw [lookupLast_append] at hrow
    cases hext : lookupLast ext r with
    | some v =>
      obtain ⟨_, e, he, hke, hna⟩ := hprop (r, v) (lookupLast_mem ext r v hext)
      rw [hall e he hke.symm] at hna
      cases hna
    | none =>
      rw [hext, orD_none, lookupLast_const_map roi r "❌" hr] at hrow
      exact (Option.some.inj hrow).symm

/-- C2 witness: a single truthily-marked mechanical entry leaves the
Mechanical Rights row absent despite a non-empty collector. -/
theorem claim_C2_witness :
    create_rights_table
        [mkEntry "mechanical" [("fully_not_applicable", Json.str "not applicable here"),
          ("collected_by", Json.str "PRO")]] ["Mechanical Rights"] =
      some [("Mechanical Rights", "❌")] ∧
    ("Mechanical Rights", "❌").2 = "❌" := by
  refine ⟨rfl, ?_⟩
  refine claim_C2_na_absent
    [mkEntry "mechanical" [("fully_not_applicable", Json.str "not applicable here"),
      ("collected_by", Json.str "PRO")]] ["Mechanical Rights"] "Mechanical Rights"
    [("Mechanical Rights", "❌")] rfl (List.mem_singleton.mpr rfl) ?_ _ ?_ rfl
  · intro e he hd
    rw [List.mem_singleton] at he
    subst he
    rfl
  · exact List.mem_singleton.mpr rfl

/-! ### Claim C3: applicable entries mark their right present -/

/-- C3 counterexample: the claim says a matching entry with
`fully_not_applicable` unset and a non-empty `collected_by` marks the
right present.  But the code additionally rejects a `collected_by` that
starts with the ❌ sentinel: this entry's collector is the non-empty
string "❌ Not collected digitally", its marker is unset, and the row
stays absent. -/
theorem claim_C3_counterexample :
    create_rights_table [mkEntry "mechanical" infoC3] ["Mechanical Rights"] =
      some [("Mechanical Rights", "❌")] ∧
    asStr (mkEntry "mechanical" infoC3).collectedBy = some "❌ Not collected digitally" ∧
    (mkEntry "mechanical" infoC3).fully_not_applicable.truthy = false := by
  refine ⟨rfl, rfl, rfl⟩

/-- C3 (amended): a matching entry with a falsy `fully_not_applicable`
and a non-empty string `collected_by` that does not start with the ❌
sentinel marks its right present (✅), and the output rows preserve the
caller-supplied ordering of the rights of interest, not the data
order. -/
theorem claim_C3_present (dl : List Entry) (roi : List String) (r s : String)
    (t : List (String × String)) (e : Entry) (hc : create_rights_table dl roi = some t)
    (he : e ∈ dl) (hd : displayKey e.right = r)
    (hna : e.fully_not_applicable.truthy = false) (hcb : e.collectedBy = Json.str s)
    (hs : s ≠ "") (hx : pyStartsWith s "❌" = false) :
    t.map Prod.fst = roi ∧ ∀ p ∈ t, p.1 = r → p.2 = "✅" := by
  simp only [create_rights_table] at hc
  cases hw : crtFold (roi.map fun r => (r, "❌")) dl with
  | none => rw [hw] at hc; cases hc
  | some w =>
    rw [hw] at hc
    refine ⟨(buildRows_spec w roi t hc).1, ?_⟩
    intro p hp hpr
    have hrow := (buildRows_spec w roi t hc).2 p hp
    rw [hpr] at hrow
    have hmem : (r, "✅") ∈ w := by
      rw [← hd]
      exact crtFold_qualified_mem dl _ w e s hw he hna hcb hs hx
    obtain ⟨ext, hwe, hprop⟩ := crtFold_ext dl _ w hw
    subst hwe
    have hmemext : (r, "✅") ∈ ext := by
      rcases List.mem_append.mp hmem with h1 | h1
      · simp only [List.mem_map] at h1
        obtain ⟨x, _, hx1⟩ := h1
        have h2 : "❌" = "✅" := congrArg Prod.snd hx1
        exact absurd h2 (by decide)
      · exact h1
    rw [lookupLast_append] at hrow
    cases hext : lookupLast ext r with
    | none =>
      have := lookupLast_isSome_of_mem ext r "✅" hmemext
      rw [hext] at this
      cases this
    | some v =>
      have hv := (hprop (r, v) (lookupLast_mem ext r v hext)).1
      rw [hext] at hrow
      simp only [orD_some] at hrow
      exact (Option.some.inj hrow).symm.trans hv

/-- C3 witness: a PRO-collected mechanical entry yields a present mark in
the caller-ordered single-row table. -/
theorem claim_C3_witness :
    create_rights_table [mkEntry "mechanical" [("collected_by", Json.str "PRO")]]
        ["Mechanical Rights"] = some [("Mechanical Rights", "✅")] ∧
    [("Mechanical Rights", "✅")].map Prod.fst = ["Mechanical Rights"] ∧
    ("Mechanical Rights", "✅").2 = "✅" := by
  have h := claim_C3_present [mkEntry "mechanical" [("collected_by", Json.str "PRO")]]
    ["Mechanical Rights"] "Mechanical Rights" "PRO" [("Mechanical Rights", "✅")]
    (mkEntry "mechanical" [("collected_by", Json.str "PRO")]) rfl
    (List.mem_singleton.mpr rfl) rfl rfl rfl (by decide) rfl
  exact ⟨rfl, h.1, h.2 _ (List.mem_singleton.mpr rfl) rfl⟩

/-! ### Graph-state lemmas -/

theorem lookupLast_single {α : Type} (k : String) (v : α) :
    lookupLast [(k, v)] k = some v := by
  simp [lookupLast]

theorem add_node_positions (st : GState) (n : String) :
    (add_node st n).positions = st.positions := by
  unfold add_node; split <;> rfl

theorem add_node_colors (st : GState) (n : String) :
    (add_node st n).colors = st.colors := by
  unfold add_node; split <;> rfl

theorem add_node_edges (st : GState) (n : String) :
    (add_node st n).edges = st.edges := by
  unfold add_node; split <;> rfl

theorem add_node_nodes_sub (st : GState) (n : String) :
    st.nodes ⊆ (add_node st n).nodes := by
  unfold add_node; split
  · exact fun a ha => ha
  · exact fun a ha => List.mem_append_left _ ha

theorem add_node_mem (st : GState) (n : String) : n ∈ (add_node st n).nodes := by
  unfold add_node; split
  · assumption
  · exact List.mem_append_right _ (List.mem_singleton.mpr rfl)

theorem add_edge_positions (st : GState) (a b : String) :
    (add_edge st a b).positions = st.positions := by
  unfold add_edge
  by_cases h : (a, b) ∈ (add_node (add_node st a) b).edges <;>
    simp [h, add_node_positions]

theorem add_edge_colors (st : GState) (a b : String) :
    (add_edge st a b).colors = st.colors := by
  unfold add_edge
  by_cases h : (a, b) ∈ (add_node (add_node st a) b).edges <;>
    simp [h, add_node_colors]

theorem add_edge_edges_sub (st : GState) (a b : String) :
    st.edges ⊆ (add_edge st a b).edges := by
  unfold add_edge
  by_cases h : (a, b) ∈ (add_node (add_node st a) b).edges
  · rw [if_pos h, add_node_edges, add_node_edges]
    exact fun x hx => hx
  · rw [if_neg h]
    simp only [add_node_edges]
    exact fun x hx => List.mem_append_left _ hx

theorem add_edge_mem (st : GState) (a b : String) : (a, b) ∈ (add_edge st a b).edges := by
  unfold add_edge
  by_cases h : (a, b) ∈ (add_node (add_node st a) b).edges
  · rw [if_pos h]
    exact h
  · rw [if_neg h]
    simp only [add_node_edges]
    exact List.mem_append_right _ (List.mem_singleton.mpr rfl)

theorem add_edge_nodes_sub (st : GState) (a b : String) :
    st.nodes ⊆ (add_edge st a b).nodes := by
  unfold add_edge
  have h1 : st.nodes ⊆ (add_node (add_node st a) b).nodes :=
    fun x hx => add_node_nodes_sub _ _ (add_node_nodes_sub _ _ hx)
  by_cases h : (a, b) ∈ (add_node (add_node st a) b).edges
  · rw [if_pos h]
    exact h1
  · rw [if_neg h]
    exact fun x hx => h1 hx

theorem setColor_positions (st : GState) (n c : String) :
    (setColor st n c).positions = st.positions := rfl

theorem setColor_colors (st : GState) (n c : String) :
    (setColor st n c).colors = st.colors ++ [(n, c)] := rfl

theorem setColor_edges (st : GState) (n c : String) : (setColor st n c).edges = st.edges := rfl

theorem setColor_nodes (st : GState) (n c : String) : (setColor st n c).nodes = st.nodes := rfl

theorem setPos_positions (st : GState) (n : String) (p : Int × Int) :
    (setPos st n p).positions = st.positions ++ [(n, p)] := rfl

theorem setPos_colors (st : GState) (n : String) (p : Int × Int) :
    (setPos st n p).colors = st.colors := rfl

theorem setPos_edges (st : GState) (n : String) (p : Int × Int) :
    (setPos st n p).edges = st.edges := rfl

theorem setPos_nodes (st : GState) (n : String) (p : Int × Int) :
    (setPos st n p).nodes = st.nodes := rfl

/-! ### Single-iteration lemmas for the rights loop -/

theorem strFieldD_eq (info : List (String × Json)) (kk s0 : String)
    (h : getStrField info kk = some s0) : strFieldD info kk = s0 := by
  unfold getStrField asStr at h
  unfold strFieldD
  cases hv : (assocJ info kk).getD (Json.str "") <;> rw [hv] at h <;> cases h <;> rfl

theorem payeeEff_eq (role k : String) (info : List (String × Json)) (py0 : String)
    (h : getStrField info "payee" = some py0) :
    payeeEff role (k, Json.obj info) = if pyStrip py0 = "" then role else pyStrip py0 := by
  simp [payeeEff, strFieldD_eq info "payee" py0 h]

theorem cbLabelOf_eq (k : String) (info : List (String × Json)) (cb0 : String)
    (h : getStrField info "collected_by" = some cb0) :
    cbLabelOf (k, Json.obj info) = pyStrip cb0 := by
  simp [cbLabelOf, strFieldD_eq info "collected_by" cb0 h]

/-- The skipped-iteration equation (app.py lines 97-98): a non-dict
details value leaves the state untouched. -/
theorem processRight_skip (source role : String) (mid : Int) (i : Nat) (st : GState)
    (k : String) (d : Json) (h : d.isObj = false) :
    processRight source role mid i st (k, d) = some st := by
  cases d with
  | obj l => simp [Json.isObj] at h
  | null => rfl
  | bool b => rfl
  | num n => rfl
  | str s => rfl
  | arr xs => rfl

/-- The inapplicable-iteration equation (app.py lines 107-115): only the
right node, the source edge, the red color and the right position are
added; the iteration stops there. -/
theorem processRight_na_eq (source role : String) (mid : Int) (i : Nat) (st : GState)
    (k : String) (info : List (String × Json)) (cb0 py0 : String)
    (hcb : getStrField info "collected_by" = some cb0)
    (hpy : getStrField info "payee" = some py0)
    (hna : (assocJ info "fully_not_applicable").isSome = true) :
    processRight source role mid i st (k, Json.obj info) =
      some (setPos (setColor (add_edge (add_node st k) source k) k "red") k
        (x_offset, -(i : Int) * y_offset)) := by
  simp [processRight, hcb, hpy, hna]

/-- The applicable-iteration equation (app.py lines 100-133). -/
theorem processRight_app_eq (source role : String) (mid : Int) (i : Nat) (st : GState)
    (k : String) (info : List (String × Json)) (cb0 py0 : String)
    (hcb : getStrField info "collected_by" = some cb0)
    (hpy : getStrField info "payee" = some py0)
    (hna : (assocJ info "fully_not_applicable").isSome = false) :
    processRight source role mid i st (k, Json.obj info) =
      some (
        let collected_by := pyStrip cb0
        let payee := if pyStrip py0 = "" then role else pyStrip py0
        let st1 := setPos (setColor (add_edge (add_node st k) source k) k source_color) k
          (x_offset, -(i : Int) * y_offset)
        let st2 := if collected_by = "" then st1 else
          setPos (setColor (add_edge st1 k collected_by) collected_by source_color)
            collected_by (x_offset + x_offset, -(i : Int) * y_offset)
        if payee = "" then st2 else
          setPos (setColor (add_edge (add_node st2 payee)
              (if collected_by = "" then k else collected_by) payee) payee source_color)
            payee (x_offset + x_offset + x_offset, mid)) := by
  simp [processRight, hcb, hpy, hna]

theorem lookupLast_append_cons {α : Type} (xs rest : List (String × α)) (k : String) (v : α)
    (h : ∀ p ∈ rest, p.1 ≠ k) : lookupLast (xs ++ (k, v) :: rest) k = some v := by
  rw [lookupLast_append]
  have h1 : lookupLast ((k, v) :: rest) k = some v := by
    have h2 : lookupLast ((k, v) :: rest) k =
        orD (lookupLast rest k) (if k = k then some v else none) := by
      simpa [lookupLast] using lookupLast_foldl k rest (if k = k then some v else none)
    rw [h2, lookupLast_eq_none rest k h]
    simp [orD]
  rw [h1]
  rfl

theorem processRight_app_none_none (source role : String) (mid : Int) (i : Nat) (st : GState)
    (k : String) (info : List (String × Json)) (cb0 py0 : String)
    (hcb : getStrField info "collected_by" = some cb0)
    (hpy : getStrField info "payee" = some py0)
    (hna : (assocJ info "fully_not_applicable").isSome = false)
    (hcv : pyStrip cb0 = "") (hpv : (if pyStrip py0 = "" then role else pyStrip py0) = "") :
    processRight source role mid i st (k, Json.obj info) =
      some (setPos (setColor (add_edge (add_node st k) source k) k source_color) k
        (x_offset, -(i : Int) * y_offset)) := by
  simp [processRight, hcb, hpy, hna, hcv, hpv]

theorem processRight_app_none_some (source role : String) (mid : Int) (i : Nat) (st : GState)
    (k : String) (info : List (String × Json)) (cb0 py0 pv : String)
    (hcb : getStrField info "collected_by" = some cb0)
    (hpy : getStrField info "payee" = some py0)
    (hna : (assocJ info "fully_not_applicable").isSome = false)
    (hcv : pyStrip cb0 = "") (hpv : (if pyStrip py0 = "" then role else pyStrip py0) = pv)
    (hpne : pv ≠ "") :
    processRight source role mid i st (k, Json.obj info) =
      some (setPos (setColor (add_edge (add_node
          (setPos (setColor (add_edge (add_node st k) source k) k source_color) k
            (x_offset, -(i : Int) * y_offset)) pv) k pv) pv source_color) pv
        (x_offset + x_offset + x_offset, mid)) := by
  subst hpv
  simp [processRight, hcb, hpy, hna, hcv, hpne]

theorem processRight_app_some_none (source role : String) (mid : Int) (i : Nat) (st : GState)
    (k : String) (info : List (String × Json)) (cb0 py0 cb : String)
    (hcb : getStrField info "collected_by" = some cb0)
    (hpy : getStrField info "payee" = some py0)
    (hna : (assocJ info "fully_not_applicable").isSome = false)
    (hcv : pyStrip cb0 = cb) (hcne : cb ≠ "")
    (hpv : (if pyStrip py0 = "" then role else pyStrip py0) = "") :
    processRight source role mid i st (k, Json.obj info) =
      some (setPos (setColor (add_edge
          (setPos (setColor (add_edge (add_node st k) source k) k source_color) k
            (x_offset, -(i : Int) * y_offset)) k cb) cb source_color) cb
        (x_offset + x_offset, -(i : Int) * y_offset)) := by
  subst hcv
  simp [processRight, hcb, hpy, hna, hcne, hpv]

theorem processRight_app_some_some (source role : String) (mid : Int) (i : Nat) (st : GState)
    (k : String) (info : List (String × Json)) (cb0 py0 cb pv : String)
    (hcb : getStrField info "collected_by" = some cb0)
    (hpy : getStrField info "payee" = some py0)
    (hna : (assocJ info "fully_not_applicable").isSome = false)
    (hcv : pyStrip cb0 = cb) (hcne : cb ≠ "")
    (hpv : (if pyStrip py0 = "" then role else pyStrip py0) = pv) (hpne : pv ≠ "") :
    processRight source role mid i st (k, Json.obj info) =
      some (setPos (setColor (add_edge (add_node
          (setPos (setColor (add_edge
            (setPos (setColor (add_edge (add_node st k) source k) k source_color) k
              (x_offset, -(i : Int) * y_offset)) k cb) cb source_color) cb
            (x_offset + x_offset, -(i : Int) * y_offset)) pv) cb pv) pv source_color) pv
        (x_offset + x_offset + x_offset, mid)) := by
  subst hcv hpv
  simp [processRight, hcb, hpy, hna, hcne, hpne]

/-- After its own iteration, a right whose name is not reused as its own
collector or payee sits at `(x_offset, -i*y_offset)` and carries red when
inapplicable, the source color otherwise. -/
theorem processRight_self (source role : String) (mid : Int) (i : Nat) (st st2 : GState)
    (k : String) (info : List (String × Json))
    (h : processRight source role mid i st (k, Json.obj info) = some st2)
    (hself : k ∉ cbPayeeLabels role (k, Json.obj info)) :
    lookupLast st2.positions k = some (x_offset, -(i : Int) * y_offset) ∧
    lookupLast st2.colors k =
      some (if isNAEntry (k, Json.obj info) then "red" else source_color) := by
  cases hcb : getStrField info "collected_by" with
  | none => simp [processRight, hcb] at h
  | some cb0 =>
  cases hpy : getStrField info "payee" with
  | none => simp [processRight, hcb, hpy] at h
  | some py0 =>
  by_cases hna : (assocJ info "fully_not_applicable").isSome
  · rw [processRight_na_eq source role mid i st k info cb0 py0 hcb hpy hna] at h
    have hst2 := Option.some.inj h
    subst hst2
    constructor
    · simp only [setPos_positions, setColor_positions, add_edge_positions, add_node_positions]
      exact lookupLast_snoc_same _ _ _
    · simp only [setPos_colors, setColor_colors, add_edge_colors, add_node_colors,
        isNAEntry, hna, if_pos rfl]
      exact lookupLast_snoc_same _ _ _
  · have hnaF : (assocJ info "fully_not_applicable").isSome = false := by simpa using hna
    have hnaB : isNAEntry (k, Json.obj info) = false := by
      simp only [isNAEntry]
      exact hnaF
    rw [cbPayeeLabels, hnaB] at hself
    simp only [Bool.false_eq_true, if_false,
      cbLabelOf_eq k info cb0 hcb, payeeEff_eq role k info py0 hpy,
      List.mem_append] at hself
    push_neg at hself
    obtain ⟨hs1, hs2⟩ := hself
    rw [hnaB]
    simp only [Bool.false_eq_true, if_false]
    by_cases hc : pyStrip cb0 = "" <;>
      by_cases hp2 : (if pyStrip py0 = "" then role else pyStrip py0) = ""
    · rw [processRight_app_none_none source role mid i st k info cb0 py0 hcb hpy hnaF hc hp2] at h
      have hst2 := Option.some.inj h
      subst hst2
      constructor
      · simp only [setPos_positions, setColor_positions, add_edge_positions, add_node_positions]
        exact lookupLast_snoc_same _ _ _
      · simp only [setPos_colors, setColor_colors, add_edge_colors, add_node_colors]
        exact lookupLast_snoc_same _ _ _
    · have hkp : (if pyStrip py0 = "" then role else pyStrip py0) ≠ k := by
        rw [if_neg hp2] at hs2
        exact fun hk => hs2 (hk ▸ List.mem_singleton.mpr rfl)
      rw [processRight_app_none_some source role mid i st k info cb0 py0 _ hcb hpy hnaF hc rfl
        hp2] at h
      have hst2 := Option.some.inj h
      subst hst2
      constructor
      · simp only [setPos_positions, setColor_positions, add_edge_positions, add_node_positions,
          setPos_colors, setColor_colors]
        rw [lookupLast_snoc_ne _ _ _ _ hkp]
        exact lookupLast_snoc_same _ _ _
      · simp only [setPos_colors, setColor_colors, add_edge_colors, add_node_colors,
          setPos_positions]
        rw [lookupLast_snoc_ne _ _ _ _ hkp]
        exact lookupLast_snoc_same _ _ _
    · have hkc : pyStrip cb0 ≠ k := by
        rw [if_neg hc] at hs1
        exact fun hk => hs1 (hk ▸ List.mem_singleton.mpr rfl)
      rw [processRight_app_some_none source role mid i st k info cb0 py0 _ hcb hpy hnaF rfl hc
        hp2] at h
      have hst2 := Option.some.inj h
      subst hst2
      constructor
      · simp only [setPos_positions, setColor_positions, add_edge_positions, add_node_positions,
          setPos_colors, setColor_colors]
        rw [lookupLast_snoc_ne _ _ _ _ hkc]
        exact lookupLast_snoc_same _ _ _
      · simp only [setPos_colors, setColor_colors, add_edge_colors, add_node_colors,
          setPos_positions]
        rw [lookupLast_snoc_ne _ _ _ _ hkc]
        exact lookupLast_snoc_same _ _ _
    · have hkc : pyStrip cb0 ≠ k := by
        rw [if_neg hc] at hs1
        exact fun hk => hs1 (hk ▸ List.mem_singleton.mpr rfl)
      have hkp : (if pyStrip py0 = "" then role else pyStrip py0) ≠ k := by
        rw [if_neg hp2] at hs2
        exact fun hk => hs2 (hk ▸ List.mem_singleton.mpr rfl)
      rw [processRight_app_some_some source role mid i st k info cb0 py0 _ _ hcb hpy hnaF rfl hc
        rfl hp2] at h
      have hst2 := Option.some.inj h
      subst hst2
      constructor
      · simp only [setPos_positions, setColor_positions, add_edge_positions, add_node_positions,
          setPos_colors, setColor_colors]
        rw [lookupLast_snoc_ne _ _ _ _ hkp, lookupLast_snoc_ne _ _ _ _ hkc]
        exact lookupLast_snoc_same _ _ _
      · simp only [setPos_colors, setColor_colors, add_edge_colors, add_node_colors,
          setPos_positions]
        rw [lookupLast_snoc_ne _ _ _ _ hkp, lookupLast_snoc_ne _ _ _ _ hkc]
        exact lookupLast_snoc_same _ _ _

/-- The payee write is the last one of an applicable iteration: the payee
node lands at `(6, mid)` — the source's midpoint row — whatever else the
iteration wrote. -/
theorem processRight_payee_pos (source role : String) (mid : Int) (i : Nat) (st st2 : GState)
    (k : String) (info : List (String × Json))
    (h : processRight source role mid i st (k, Json.obj info) = some st2)
    (hna : (assocJ info "fully_not_applicable").isSome = false)
    (hpne : payeeEff role (k, Json.obj info) ≠ "") :
    lookupLast st2.positions (payeeEff role (k, Json.obj info)) =
      some (x_offset + x_offset + x_offset, mid) := by
  cases hcb : getStrField info "collected_by" with
  | none => simp [processRight, hcb] at h
  | some cb0 =>
  cases hpy : getStrField info "payee" with
  | none => simp [processRight, hcb, hpy] at h
  | some py0 =>
  have hpv := payeeEff_eq role k info py0 hpy
  rw [hpv] at hpne ⊢
  by_cases hc : pyStrip cb0 = ""
  · rw [processRight_app_none_some source role mid i st k info cb0 py0 _ hcb hpy hna hc rfl
      hpne] at h
    have hst2 := Option.some.inj h
    subst hst2
    simp only [setPos_positions]
    exact lookupLast_snoc_same _ _ _
  · rw [processRight_app_some_some source role mid i st k info cb0 py0 _ _ hcb hpy hna rfl hc
      rfl hpne] at h
    have hst2 := Option.some.inj h
    subst hst2
    simp only [setPos_positions]
    exact lookupLast_snoc_same _ _ _

/-- An iteration writes positions and colors only for its own labels:
any other node's position and color are untouched. -/
theorem processRight_notTouched (source role : String) (mid : Int) (i : Nat) (st st2 : GState)
    (e : String × Json) (n : String)
    (h : processRight source role mid i st e = some st2)
    (hn : n ∉ entryLabels role e) :
    lookupLast st2.positions n = lookupLast st.positions n ∧
    lookupLast st2.colors n = lookupLast st.colors n := by
  obtain ⟨k, d⟩ := e
  cases d with
  | obj info =>
    rw [entryLabels] at hn
    simp only [List.mem_cons] at hn
    push_neg at hn
    obtain ⟨hnk, hn2⟩ := hn
    cases hcb : getStrField info "collected_by" with
    | none => simp [processRight, hcb] at h
    | some cb0 =>
    cases hpy : getStrField info "payee" with
    | none => simp [processRight, hcb, hpy] at h
    | some py0 =>
    by_cases hna : (assocJ info "fully_not_applicable").isSome
    · rw [processRight_na_eq source role mid i st k info cb0 py0 hcb hpy hna] at h
      have hst2 := Option.some.inj h
      subst hst2
      constructor
      · simp only [setPos_positions, setColor_positions, add_edge_positions, add_node_positions]
        exact lookupLast_snoc_ne _ _ _ _ (Ne.symm hnk)
      · simp only [setPos_colors, setColor_colors, add_edge_colors, add_node_colors]
        exact lookupLast_snoc_ne _ _ _ _ (Ne.symm hnk)
    · have hnaF : (assocJ info "fully_not_applicable").isSome = false := by simpa using hna
      have hnaB : isNAEntry (k, Json.obj info) = false := by
        simp only [isNAEntry]
        exact hnaF
      rw [cbPayeeLabels, hnaB] at hn2
      simp only [Bool.false_eq_true, if_false,
        cbLabelOf_eq k info cb0 hcb, payeeEff_eq role k info py0 hpy,
        List.mem_append] at hn2
      push_neg at hn2
      obtain ⟨hn3, hn4⟩ := hn2
      by_cases hc : pyStrip cb0 = "" <;>
        by_cases hp2 : (if pyStrip py0 = "" then role else pyStrip py0) = ""
      · rw [processRight_app_none_none source role mid i st k info cb0 py0 hcb hpy hnaF hc
          hp2] at h
        have hst2 := Option.some.inj h
        subst hst2
        constructor
        · simp only [setPos_positions, setColor_positions, add_edge_positions,
            add_node_positions]
          exact lookupLast_snoc_ne _ _ _ _ (Ne.symm hnk)
        · simp only [setPos_colors, setColor_colors, add_edge_colors, add_node_colors]
          exact lookupLast_snoc_ne _ _ _ _ (Ne.symm hnk)
      · have hnp : (if pyStrip py0 = "" then role else pyStrip py0) ≠ n := by
          rw [if_neg hp2] at hn4
          exact fun hk => hn4 (hk ▸ List.mem_singleton.mpr rfl)
        rw [processRight_app_none_some source role mid i st k info cb0 py0 _ hcb hpy hnaF hc rfl
          hp2] at h
        have hst2 := Option.some.inj h
        subst hst2
        constructor
        · simp only [setPos_positions, setColor_positions, add_edge_positions,
            add_node_positions, setPos_colors, setColor_colors]
          rw [lookupLast_snoc_ne _ _ _ _ hnp]
          exact lookupLast_snoc_ne _ _ _ _ (Ne.symm hnk)
        · simp only [setPos_colors, setColor_colors, add_edge_colors, add_node_colors,
            setPos_positions]
          rw [lookupLast_snoc_ne _ _ _ _ hnp]
          exact lookupLast_snoc_ne _ _ _ _ (Ne.symm hnk)
      · have hnc : pyStrip cb0 ≠ n := by
          rw [if_neg hc] at hn3
          exact fun hk => hn3 (hk ▸ List.mem_singleton.mpr rfl)
        rw [processRight_app_some_none source role mid i st k info cb0 py0 _ hcb hpy hnaF rfl hc
          hp2] at h
        have hst2 := Option.some.inj h
        subst hst2
        constructor
        · simp only [setPos_positions, setColor_positions, add_edge_positions,
            add_node_positions, setPos_colors, setColor_colors]
          rw [lookupLast_snoc_ne _ _ _ _ hnc]
          exact lookupLast_snoc_ne _ _ _ _ (Ne.symm hnk)
        · simp only [setPos_colors, setColor_colors, add_edge_colors, add_node_colors,
            setPos_positions]
          rw [lookupLast_snoc_ne _ _ _ _ hnc]
          exact lookupLast_snoc_ne _ _ _ _ (Ne.symm hnk)
      · have hnc : pyStrip cb0 ≠ n := by
          rw [if_neg hc] at hn3
          exact fun hk => hn3 (hk ▸ List.mem_singleton.mpr rfl)
        have hnp : (if pyStrip py0 = "" then role else pyStrip py0) ≠ n := by
          rw [if_neg hp2] at hn4
          exact fun hk => hn4 (hk ▸ List.mem_singleton.mpr rfl)
        rw [processRight_app_some_some source role mid i st k info cb0 py0 _ _ hcb hpy hnaF rfl
          hc rfl hp2] at h
        have hst2 := Option.some.inj h
        subst hst2
        constructor
        · simp only [setPos_positions, setColor_positions, add_edge_positions,
            add_node_positions, setPos_colors, setColor_colors]
          rw [lookupLast_snoc_ne _ _ _ _ hnp, lookupLast_snoc_ne _ _ _ _ hnc]
          exact lookupLast_snoc_ne _ _ _ _ (Ne.symm hnk)
        · simp only [setPos_colors, setColor_colors, add_edge_colors, add_node_colors,
            setPos_positions]
          rw [lookupLast_snoc_ne _ _ _ _ hnp, lookupLast_snoc_ne _ _ _ _ hnc]
          exact lookupLast_snoc_ne _ _ _ _ (Ne.symm hnk)
  | null => cases h; exact ⟨rfl, rfl⟩
  | bool b => cases h; exact ⟨rfl, rfl⟩
  | num n2 => cases h; exact ⟨rfl, rfl⟩
  | str s2 => cases h; exact ⟨rfl, rfl⟩
  | arr xs => cases h; exact ⟨rfl, rfl⟩

/-- A payee position already written at the midpoint row survives later
iterations whose right key and collector differ from it (a later payee
write of the same label rewrites the same value). -/
theorem processRight_payee_stable (source role : String) (mid : Int) (i : Nat)
    (st st2 : GState) (e : String × Json) (p : String)
    (h : processRight source role mid i st e = some st2)
    (hkey : e.1 ≠ p) (hcbne : cbLabelOf e ≠ p)
    (hprev : lookupLast st.positions p = some (x_offset + x_offset + x_offset, mid)) :
    lookupLast st2.positions p = some (x_offset + x_offset + x_offset, mid) := by
  obtain ⟨k, d⟩ := e
  cases d with
  | obj info =>
    cases hcb : getStrField info "collected_by" with
    | none => simp [processRight, hcb] at h
    | some cb0 =>
    cases hpy : getStrField info "payee" with
    | none => simp [processRight, hcb, hpy] at h
    | some py0 =>
    have hkp : k ≠ p := hkey
    have hcp : pyStrip cb0 ≠ p := by
      rw [cbLabelOf_eq k info cb0 hcb] at hcbne
      exact hcbne
    by_cases hna : (assocJ info "fully_not_applicable").isSome
    · rw [processRight_na_eq source role mid i st k info cb0 py0 hcb hpy hna] at h
      have hst2 := Option.some.inj h
      subst hst2
      simp only [setPos_positions, setColor_positions, add_edge_positions, add_node_positions]
      rw [lookupLast_snoc_ne _ _ _ _ hkp]
      exact hprev
    · have hnaF : (assocJ info "fully_not_applicable").isSome = false := by simpa using hna
      by_cases hc : pyStrip cb0 = "" <;>
        by_cases hp2 : (if pyStrip py0 = "" then role else pyStrip py0) = ""
      · rw [processRight_app_none_none source role mid i st k info cb0 py0 hcb hpy hnaF hc
          hp2] at h
        have hst2 := Option.some.inj h
        subst hst2
        simp only [setPos_positions, setColor_positions, add_edge_positions, add_node_positions]
        rw [lookupLast_snoc_ne _ _ _ _ hkp]
        exact hprev
      · rw [processRight_app_none_some source role mid i st k info cb0 py0 _ hcb hpy hnaF hc rfl
          hp2] at h
        have hst2 := Option.some.inj h
        subst hst2
        simp only [setPos_positions, setColor_positions, add_edge_positions,
          add_node_positions, setPos_colors, setColor_colors]
        by_cases hpp : (if pyStrip py0 = "" then role else pyStrip py0) = p
        · rw [hpp]
          exact lookupLast_snoc_same _ _ _
        · rw [lookupLast_snoc_ne _ _ _ _ hpp, lookupLast_snoc_ne _ _ _ _ hkp]
          exact hprev
      · rw [processRight_app_some_none source role mid i st k info cb0 py0 _ hcb hpy hnaF rfl hc
          hp2] at h
        have hst2 := Option.some.inj h
        subst hst2
        simp only [setPos_positions, setColor_positions, add_edge_positions,
          add_node_positions, setPos_colors, setColor_colors]
        rw [lookupLast_snoc_ne _ _ _ _ hcp, lookupLast_snoc_ne _ _ _ _ hkp]
        exact hprev
      · rw [processRight_app_some_some source role mid i st k info cb0 py0 _ _ hcb hpy hnaF rfl
          hc rfl hp2] at h
        have hst2 := Option.some.inj h
        subst hst2
        simp only [setPos_positions, setColor_positions, add_edge_positions,
          add_node_positions, setPos_colors, setColor_colors]
        by_cases hpp : (if pyStrip py0 = "" then role else pyStrip py0) = p
        · rw [hpp]
          exact lookupLast_snoc_same _ _ _
        · rw [lookupLast_snoc_ne _ _ _ _ hpp, lookupLast_snoc_ne _ _ _ _ hcp,
            lookupLast_snoc_ne _ _ _ _ hkp]
          exact hprev
  | null => cases h; exact hprev
  | bool b => cases h; exact hprev
  | num n2 => cases h; exact hprev
  | str s2 => cases h; exact hprev
  | arr xs => cases h; exact hprev

/-- Iterations never remove edges. -/
theorem processRight_edges_sub (source role : String) (mid : Int) (i : Nat)
    (st st2 : GState) (e : String × Json)
    (h : processRight source role mid i st e = some st2) : st.edges ⊆ st2.edges := by
  obtain ⟨k, d⟩ := e
  cases d with
  | obj info =>
    cases hcb : getStrField info "collected_by" with
    | none => simp [processRight, hcb] at h
    | some cb0 =>
    cases hpy : getStrField info "payee" with
    | none => simp [processRight, hcb, hpy] at h
    | some py0 =>
    have base : ∀ s : GState, s.edges ⊆
        (setPos (setColor (add_edge (add_node s k) source k) k source_color) k
          (x_offset, -(i : Int) * y_offset)).edges := by
      intro s x hx
      simp only [setPos_edges, setColor_edges]
      exact add_edge_edges_sub _ _ _ (by rw [add_node_edges]; exact hx)
    by_cases hna : (assocJ info "fully_not_applicable").isSome
    · rw [processRight_na_eq source role mid i st k info cb0 py0 hcb hpy hna] at h
      have hst2 := Option.some.inj h
      subst hst2
      intro x hx
      simp only [setPos_edges, setColor_edges]
      exact add_edge_edges_sub _ _ _ (by rw [add_node_edges]; exact hx)
    · have hnaF : (assocJ info "fully_not_applicable").isSome = false := by simpa using hna
      by_cases hc : pyStrip cb0 = "" <;>
        by_cases hp2 : (if pyStrip py0 = "" then role else pyStrip py0) = ""
      · rw [processRight_app_none_none source role mid i st k info cb0 py0 hcb hpy hnaF hc
          hp2] at h
        have hst2 := Option.some.inj h
        subst hst2
        exact base st
      · rw [processRight_app_none_some source role mid i st k info cb0 py0 _ hcb hpy hnaF hc rfl
          hp2] at h
        have hst2 := Option.some.inj h
        subst hst2
        intro x hx
        simp only [setPos_edges, setColor_edges]
        exact add_edge_edges_sub _ _ _ (by rw [add_node_edges]; exact base st hx)
      · rw [processRight_app_some_none source role mid i st k info cb0 py0 _ hcb hpy hnaF rfl hc
          hp2] at h
        have hst2 := Option.some.inj h
        subst hst2
        intro x hx
        simp only [setPos_edges, setColor_edges]
        exact add_edge_edges_sub _ _ _ (base st hx)
      · rw [processRight_app_some_some source role mid i st k info cb0 py0 _ _ hcb hpy hnaF rfl
          hc rfl hp2] at h
        have hst2 := Option.some.inj h
        subst hst2
        intro x hx
        simp only [setPos_edges, setColor_edges]
        refine add_edge_edges_sub _ _ _ ?_
        rw [add_node_edges]
        simp only [setPos_edges, setColor_edges]
        exact add_edge_edges_sub _ _ _ (base st hx)
  | null => cases h; exact fun x hx => hx
  | bool b => cases h; exact fun x hx => hx
  | num n2 => cases h; exact fun x hx => hx
  | str s2 => cases h; exact fun x hx => hx
  | arr xs => cases h; exact fun x hx => hx

/-- Every dict-details iteration draws the source→right edge. -/
theorem processRight_source_edge (source role : String) (mid : Int) (i : Nat)
    (st st2 : GState) (k : String) (info : List (String × Json))
    (h : processRight source role mid i st (k, Json.obj info) = some st2) :
    (source, k) ∈ st2.edges := by
  cases hcb : getStrField info "collected_by" with
  | none => simp [processRight, hcb] at h
  | some cb0 =>
  cases hpy : getStrField info "payee" with
  | none => simp [processRight, hcb, hpy] at h
  | some py0 =>
  have base : (source, k) ∈
      (setPos (setColor (add_edge (add_node st k) source k) k source_color) k
        (x_offset, -(i : Int) * y_offset)).edges := by
    simp only [setPos_edges, setColor_edges]
    exact add_edge_mem _ _ _
  by_cases hna : (assocJ info "fully_not_applicable").isSome
  · rw [processRight_na_eq source role mid i st k info cb0 py0 hcb hpy hna] at h
    have hst2 := Option.some.inj h
    subst hst2
    simp only [setPos_edges, setColor_edges]
    exact add_edge_mem _ _ _
  · have hnaF : (assocJ info "fully_not_applicable").isSome = false := by simpa using hna
    by_cases hc : pyStrip cb0 = "" <;>
      by_cases hp2 : (if pyStrip py0 = "" then role else pyStrip py0) = ""
    · rw [processRight_app_none_none source role mid i st k info cb0 py0 hcb hpy hnaF hc
        hp2] at h
      have hst2 := Option.some.inj h
      subst hst2
      exact base
    · rw [processRight_app_none_some source role mid i st k info cb0 py0 _ hcb hpy hnaF hc rfl
        hp2] at h
      have hst2 := Option.some.inj h
      subst hst2
      simp only [setPos_edges, setColor_edges]
      exact add_edge_edges_sub _ _ _ (by rw [add_node_edges]; exact base)
    · rw [processRight_app_some_none source role mid i st k info cb0 py0 _ hcb hpy hnaF rfl hc
        hp2] at h
      have hst2 := Option.some.inj h
      subst hst2
      simp only [setPos_edges, setColor_edges]
      exact add_edge_edges_sub _ _ _ base
    · rw [processRight_app_some_some source role mid i st k info cb0 py0 _ _ hcb hpy hnaF rfl
        hc rfl hp2] at h
      have hst2 := Option.some.inj h
      subst hst2
      simp only [setPos_edges, setColor_edges]
      refine add_edge_edges_sub _ _ _ ?_
      rw [add_node_edges]
      simp only [setPos_edges, setColor_edges]
      exact add_edge_edges_sub _ _ _ base

/-- An applicable iteration draws the payee edge from the collector when
one exists, else directly from the right node. -/
theorem processRight_payee_edge (source role : String) (mid : Int) (i : Nat)
    (st st2 : GState) (k : String) (info : List (String × Json))
    (h : processRight source role mid i st (k, Json.obj info) = some st2)
    (hna : (assocJ info "fully_not_applicable").isSome = false)
    (hpne : payeeEff role (k, Json.obj info) ≠ "") :
    ((if cbLabelOf (k, Json.obj info) = "" then k else cbLabelOf (k, Json.obj info)),
      payeeEff role (k, Json.obj info)) ∈ st2.edges := by
  cases hcb : getStrField info "collected_by" with
  | none => simp [processRight, hcb] at h
  | some cb0 =>
  cases hpy : getStrField info "payee" with
  | none => simp [processRight, hcb, hpy] at h
  | some py0 =>
  rw [payeeEff_eq role k info py0 hpy] at hpne ⊢
  rw [cbLabelOf_eq k info cb0 hcb]
  by_cases hc : pyStrip cb0 = ""
  · rw [processRight_app_none_some source role mid i st k info cb0 py0 _ hcb hpy hna hc rfl
      hpne] at h
    have hst2 := Option.some.inj h
    subst hst2
    rw [if_pos hc]
    simp only [setPos_edges, setColor_edges]
    exact add_edge_mem _ _ _
  · rw [processRight_app_some_some source role mid i st k info cb0 py0 _ _ hcb hpy hna rfl hc
      rfl hpne] at h
    have hst2 := Option.some.inj h
    subst hst2
    rw [if_neg hc]
    simp only [setPos_edges, setColor_edges]
    exact add_edge_mem _ _ _

/-! ### Whole-loop lemmas -/

theorem foldRights_edges_sub (source role : String) (mid : Int) :
    ∀ (l : List (String × Json)) (st : GState) (i : Nat) (st' : GState),
      foldRights source role mid st i l = some st' → st.edges ⊆ st'.edges := by
  intro l
  induction l with
  | nil => intro st i st' h; cases h; exact fun x hx => hx
  | cons e rest ih =>
    intro st i st' h
    unfold foldRights at h
    cases hs : processRight source role mid i st e with
    | none => rw [hs] at h; cases h
    | some st1 =>
      rw [hs] at h
      exact fun x hx => ih st1 (i + 1) st' h (processRight_edges_sub _ _ _ _ _ _ _ hs hx)

theorem foldRights_notTouched (source role : String) (mid : Int) :
    ∀ (l : List (String × Json)) (st : GState) (i : Nat) (st' : GState) (n : String),
      foldRights source role mid st i l = some st' →
      (∀ e ∈ l, n ∉ entryLabels role e) →
      lookupLast st'.positions n = lookupLast st.positions n ∧
      lookupLast st'.colors n = lookupLast st.colors n := by
  intro l
  induction l with
  | nil => intro st i st' n h hn; cases h; exact ⟨rfl, rfl⟩
  | cons e rest ih =>
    intro st i st' n h hn
    unfold foldRights at h
    cases hs : processRight source role mid i st e with
    | none => rw [hs] at h; cases h
    | some st1 =>
      rw [hs] at h
      have h1 := processRight_notTouched source role mid i st st1 e n hs
        (hn e (List.mem_cons_self e rest))
      have h2 := ih st1 (i + 1) st' n h (fun e2 he2 => hn e2 (List.mem_cons_of_mem e he2))
      exact ⟨h2.1.trans h1.1, h2.2.trans h1.2⟩

theorem foldRights_payee_stable (source role : String) (mid : Int) :
    ∀ (l : List (String × Json)) (st : GState) (i : Nat) (st' : GState) (p : String),
      foldRights source role mid st i l = some st' →
      (∀ e2 ∈ l, e2.1 ≠ p ∧ cbLabelOf e2 ≠ p) →
      lookupLast st.positions p = some (x_offset + x_offset + x_offset, mid) →
      lookupLast st'.positions p = some (x_offset + x_offset + x_offset, mid) := by
  intro l
  induction l with
  | nil => intro st i st' p h hn hprev; cases h; exact hprev
  | cons e rest ih =>
    intro st i st' p h hn hprev
    unfold foldRights at h
    cases hs : processRight source role mid i st e with
    | none => rw [hs] at h; cases h
    | some st1 =>
      rw [hs] at h
      have h1 := processRight_payee_stable source role mid i st st1 e p hs
        (hn e (List.mem_cons_self e rest)).1 (hn e (List.mem_cons_self e rest)).2 hprev
      exact ih st1 (i + 1) st' p h (fun e2 he2 => hn e2 (List.mem_cons_of_mem e he2)) h1

theorem foldRights_right (source role : String) (mid : Int) :
    ∀ (l : List (String × Json)) (st : GState) (i : Nat) (st' : GState) (j : Nat)
      (k : String) (info : List (String × Json)),
      foldRights source role mid st i l = some st' →
      l.get? j = some (k, Json.obj info) →
      (l.map Prod.fst).Nodup →
      (∀ e2 ∈ l, k ∉ cbPayeeLabels role e2) →
      lookupLast st'.positions k = some (x_offset, -(((i + j : Nat)) : Int) * y_offset) ∧
      lookupLast st'.colors k =
        some (if isNAEntry (k, Json.obj info) then "red" else source_color) ∧
      (source, k) ∈ st'.edges := by
  intro l
  induction l with
  | nil => intro st i st' j k info h hj; cases hj
  | cons e rest ih =>
    intro st i st' j k info h hj hnd hcp
    unfold foldRights at h
    cases hs : processRight source role mid i st e with
    | none => rw [hs] at h; cases h
    | some st1 =>
      rw [hs] at h
      simp only [List.map_cons, List.nodup_cons] at hnd
      obtain ⟨hkey, hnd2⟩ := hnd
      cases j with
      | zero =>
        have he : e = (k, Json.obj info) := by
          simpa using hj
        subst he
        have hself := processRight_self source role mid i st st1 k info hs
          (hcp (k, Json.obj info) (List.mem_cons_self _ rest))
        have hpres := foldRights_notTouched source role mid rest st1 (i + 1) st' k h ?_
        · refine ⟨?_, ?_, ?_⟩
          · rw [hpres.1, hself.1]
            norm_num
          · rw [hpres.2, hself.2]
          · exact foldRights_edges_sub source role mid rest st1 (i + 1) st' h
              (processRight_source_edge source role mid i st st1 k info hs)
        · intro e2 he2
          rw [entryLabels]
          cases he2s : e2.2 with
          | obj info2 =>
            simp only [List.mem_cons]
            push_neg
            constructor
            · intro hk
              exact hkey (hk ▸ List.mem_map.mpr ⟨e2, he2, rfl⟩)
            · have := hcp e2 (List.mem_cons_of_mem _ he2)
              rw [cbPayeeLabels] at this ⊢
              rw [he2s] at this ⊢
              exact this
          | null => exact List.not_mem_nil k
          | bool b => exact List.not_mem_nil k
          | num n2 => exact List.not_mem_nil k
          | str s2 => exact List.not_mem_nil k
          | arr xs => exact List.not_mem_nil k
      | succ j2 =>
        have hres := ih st1 (i + 1) st' j2 k info h (by simpa using hj) hnd2
          (fun e2 he2 => hcp e2 (List.mem_cons_of_mem e he2))
        have harith : (i + 1 + j2 : Nat) = (i + (j2 + 1) : Nat) := by omega
        rw [harith] at hres
        exact hres

theorem foldRights_payee (source role : String) (mid : Int) :
    ∀ (l : List (String × Json)) (st : GState) (i : Nat) (st' : GState) (e : String × Json),
      foldRights source role mid st i l = some st' →
      e ∈ l → isApplicableEntry e = true → payeeEff role e ≠ "" →
      (∀ e2 ∈ l, e2.1 ≠ payeeEff role e ∧ cbLabelOf e2 ≠ payeeEff role e) →
      lookupLast st'.positions (payeeEff role e) =
        some (x_offset + x_offset + x_offset, mid) := by
  intro l
  induction l with
  | nil => intro st i st' e h he; simp at he
  | cons d rest ih =>
    intro st i st' e h he hap hpne hn
    unfold foldRights at h
    cases hs : processRight source role mid i st d with
    | none => rw [hs] at h; cases h
    | some st1 =>
      rw [hs] at h
      rcases List.mem_cons.mp he with h1 | h1
      · subst h1
        obtain ⟨k, dd⟩ := e
        cases hdd : dd with
        | obj info =>
          subst hdd
          have hnone : assocJ info "fully_not_applicable" = none := by
            simp only [isApplicableEntry] at hap
            exact Option.isNone_iff_eq_none.mp hap
          have hnaF : (assocJ info "fully_not_applicable").isSome = false := by
            rw [hnone]
            rfl
          have h1p := processRight_payee_pos source role mid i st st1 k info hs hnaF hpne
          exact foldRights_payee_stable source role mid rest st1 (i + 1) st' _ h
            (fun e2 he2 => hn e2 (List.mem_cons_of_mem _ he2)) h1p
        | null => rw [hdd, isApplicableEntry] at hap; cases hap
        | bool b => rw [hdd, isApplicableEntry] at hap; cases hap
        | num n2 => rw [hdd, isApplicableEntry] at hap; cases hap
        | str s2 => rw [hdd, isApplicableEntry] at hap; cases hap
        | arr xs => rw [hdd, isApplicableEntry] at hap; cases hap
      · exact ih st1 (i + 1) st' e h h1 hap hpne
          (fun e2 he2 => hn e2 (List.mem_cons_of_mem d he2))

/-- Unpacks a successfully built flowchart into the loop result. -/
theorem generate_flowchart_graph (source region role : String) (l : List (String × Json))
    (st' : GState)
    (h : generate_flowchart source region role (Json.obj l) = some (.graph st')) :
    foldRights source role (midY l.length) (initState source (midY l.length)) 0 l =
      some st' := by
  cases l with
  | nil => cases Option.some.inj h
  | cons e rest =>
    simp only [generate_flowchart, List.isEmpty_cons, Bool.false_eq_true, if_false] at h
    cases hf : foldRights source role (midY (e :: rest).length)
        (initState source (midY (e :: rest).length)) 0 (e :: rest) with
    | none => rw [hf] at h; cases h
    | some g =>
      rw [hf] at h
      simp only [Option.map_some'] at h
      have := Option.some.inj h
      cases this
      rfl

/-! ### Claim C6: the diagram geometry -/

/-- C6 counterexample: with the code's spacing (x_offset = y_offset = 2)
the source sits at (0, -1) and the payee column at x = 6 on two rights,
so the midpoint formula -((n-1)·unit)/2 and the row formula -i·unit force
unit = 2 — but then the right column would sit at 2·unit = 4 and the
payee column at 6·unit = 12, while the code places them at x = 2 and
x = 6 (1·unit and 3·unit).  Row 1's right "mechanical" is at (2, -2): the
claimed shape (2·unit, -1·unit) would need 2 = -2·(-2). -/
theorem claim_C6_counterexample :
    posOfResult (generate_flowchart "organic" "us" "artist_label" rightsTwo) "organic" =
      some (0, -1) ∧
    posOfResult (generate_flowchart "organic" "us" "artist_label" rightsTwo) "mechanical" =
      some (2, -2) ∧
    posOfResult (generate_flowchart "organic" "us" "artist_label" rightsTwo) "Publisher" =
      some (6, -1) ∧
    ((2 : Int) ≠ -2 * (-2)) := by
  refine ⟨by decide, by decide, by decide, by decide⟩

/-- C6 (amended): with unit the spacing constant (x_offset = y_offset =
2), and node labels not shared between rows (label merging repositions a
shared node), the source sits at (0, -((n-1)·unit)/2), the i-th right at
(unit, -i·unit) with an edge source→right, and every payee at
(3·unit, source midpoint row) — not 2·unit and 6·unit. -/
theorem claim_C6_layout (source region role : String) (l : List (String × Json))
    (st' : GState)
    (h : generate_flowchart source region role (Json.obj l) = some (.graph st')) :
    ((∀ e ∈ l, source ∉ entryLabels role e) →
      lookupLast st'.positions source = some (0, midY l.length)) ∧
    (∀ j k info, l.get? j = some (k, Json.obj info) → (l.map Prod.fst).Nodup →
      (∀ e2 ∈ l, k ∉ cbPayeeLabels role e2) →
      lookupLast st'.positions k = some (x_offset, -(j : Int) * y_offset) ∧
      (source, k) ∈ st'.edges) ∧
    (∀ e ∈ l, isApplicableEntry e = true → payeeEff role e ≠ "" →
      (∀ e2 ∈ l, e2.1 ≠ payeeEff role e ∧ cbLabelOf e2 ≠ payeeEff role e) →
      lookupLast st'.positions (payeeEff role e) =
        some (x_offset + x_offset + x_offset, midY l.length)) := by
  have hf := generate_flowchart_graph source region role l st' h
  refine ⟨?_, ?_, ?_⟩
  · intro hsrc
    have hpr := foldRights_notTouched source role (midY l.length) l _ 0 st' source hf hsrc
    rw [hpr.1]
    exact lookupLast_single source (0, midY l.length)
  · intro j k info hj hnd hcp
    have hres := foldRights_right source role (midY l.length) l _ 0 st' j k info hf hj hnd hcp
    refine ⟨?_, hres.2.2⟩
    have h1 := hres.1
    simpa using h1
  · intro e he hap hpne hn
    exact foldRights_payee source role (midY l.length) l _ 0 st' e hf he hap hpne hn

/-- C6 witness: the two-right diagram, read through the amended layout at
concrete labels. -/
theorem claim_C6_witness :
    lookupLast (graphOf (generate_flowchart "organic" "us" "artist_label"
      rightsTwo)).positions "organic" = some (0, midY 2) ∧
    lookupLast (graphOf (generate_flowchart "organic" "us" "artist_label"
      rightsTwo)).positions "mechanical" = some (x_offset, -(1 : Int) * y_offset) ∧
    ("organic", "mechanical") ∈
      (graphOf (generate_flowchart "organic" "us" "artist_label" rightsTwo)).edges ∧
    lookupLast (graphOf (generate_flowchart "organic" "us" "artist_label"
      rightsTwo)).positions "Publisher" = some (x_offset + x_offset + x_offset, midY 2) := by
  have h := claim_C6_layout "organic" "us" "artist_label"
    [("performance", Json.obj [("collected_by", Json.str "PRO"), ("payee", Json.str "Artist")]),
     ("mechanical", Json.obj [("collected_by", Json.str "HFA"), ("payee", Json.str "Publisher")])]
    (graphOf (generate_flowchart "organic" "us" "artist_label" rightsTwo)) rfl
  have h2 := h.2.1 1 "mechanical"
    [("collected_by", Json.str "HFA"), ("payee", Json.str "Publisher")] rfl
    (by decide) (by decide)
  have h3 := h.2.2
    ("mechanical", Json.obj [("collected_by", Json.str "HFA"), ("payee", Json.str "Publisher")])
    (List.mem_cons_of_mem _ (List.mem_cons_self _ _)) rfl (by decide) (by decide)
  exact ⟨h.1 (by decide), h2.1, h2.2, h3⟩

/-! ### Claim C7: inapplicable rights in the diagram -/

/-- C7 counterexample: the claim says every marker-carrying right is
colored with the sentinel.  But node identity is by label: in
`rightsRecolor` the inapplicable right "sync_fees" is later written as
the collector of "performance", and the last color write wins — the
final graph shows it in the source color, not red. -/
theorem claim_C7_counterexample :
    colorOfResult (generate_flowchart "organic" "us" "artist_label" rightsRecolor)
      "sync_fees" = some "lightblue" ∧
    isNAEntry ("sync_fees", Json.obj [("fully_not_applicable", Json.str "n")]) = true ∧
    ("lightblue" : String) ≠ "red" := by
  refine ⟨by decide, rfl, by decide⟩

/-- C7 (amended): an inapplicable iteration adds exactly the right node,
the source edge, the red color and the row position — no collector or
payee node or edge; in the final graph the right keeps the sentinel color
(and rights without the marker keep the source color) provided its label
is not reused by another row; the single-right sync_fees node yields
exactly 2 nodes, 1 edge, and a red sync_fees. -/
theorem claim_C7_inapplicable (source region role : String) (l : List (String × Json))
    (st' : GState)
    (h : generate_flowchart source region role (Json.obj l) = some (.graph st')) :
    (∀ (mid : Int) (i : Nat) (st : GState) (k0 : String)
      (info0 : List (String × Json)) (cb0 py0 : String),
      getStrField info0 "collected_by" = some cb0 → getStrField info0 "payee" = some py0 →
      (assocJ info0 "fully_not_applicable").isSome = true →
      processRight source role mid i st (k0, Json.obj info0) =
        some (setPos (setColor (add_edge (add_node st k0) source k0) k0 "red") k0
          (x_offset, -(i : Int) * y_offset))) ∧
    (∀ j k info, l.get? j = some (k, Json.obj info) → (l.map Prod.fst).Nodup →
      (∀ e2 ∈ l, k ∉ cbPayeeLabels role e2) →
      lookupLast st'.colors k =
        some (if isNAEntry (k, Json.obj info) then "red" else source_color)) ∧
    (nodesOfResult (generate_flowchart "digital_downloads" "us" "artist_label" rightsSync) =
      some ["digital_downloads", "sync_fees"] ∧
    edgesOfResult (generate_flowchart "digital_downloads" "us" "artist_label" rightsSync) =
      some [("digital_downloads", "sync_fees")] ∧
    colorOfResult (generate_flowchart "digital_downloads" "us" "artist_label" rightsSync)
      "sync_fees" = some "red") := by
  have hf := generate_flowchart_graph source region role l st' h
  refine ⟨?_, ?_, by decide, by decide, by decide⟩
  · intro mid i st k0 info0 cb0 py0 hcb hpy hna
    exact processRight_na_eq source role mid i st k0 info0 cb0 py0 hcb hpy hna
  · intro j k info hj hnd hcp
    exact (foldRights_right source role (midY l.length) l _ 0 st' j k info hf hj hnd hcp).2.1

/-- C7 witness: the single-right sync_fees graph read through the amended
statement. -/
theorem claim_C7_witness :
    processRight "digital_downloads" "artist_label" 0 0 (initState "digital_downloads" 0)
      ("sync_fees", Json.obj [("fully_not_applicable", Json.str "not tracked digitally")]) =
      some (setPos (setColor (add_edge (add_node (initState "digital_downloads" 0)
        "sync_fees") "digital_downloads" "sync_fees") "sync_fees" "red") "sync_fees"
        (x_offset, -(0 : Int) * y_offset)) ∧
    lookupLast (graphOf (generate_flowchart "digital_downloads" "us" "artist_label"
      rightsSync)).colors "sync_fees" = some "red" := by
  have h := claim_C7_inapplicable "digital_downloads" "us" "artist_label"
    [("sync_fees", Json.obj [("fully_not_applicable", Json.str "not tracked digitally")])]
    (graphOf (generate_flowchart "digital_downloads" "us" "artist_label" rightsSync)) rfl
  refine ⟨h.1 0 0 (initState "digital_downloads" 0) "sync_fees"
    [("fully_not_applicable", Json.str "not tracked digitally")] "" "" rfl rfl rfl, ?_⟩
  have h2 := h.2.1 0 "sync_fees"
    [("fully_not_applicable", Json.str "not tracked digitally")] rfl (by decide) (by decide)
  simpa using h2

/-! ### Claim C8: the payee label and its edge -/

/-- C8 counterexample: the claim says the payee field is used as the
payee label whenever it is non-empty.  But the code strips it first: in
`rightsWs` the payee field is the non-empty string " ", yet the graph
falls back to the role label and no " " node exists. -/
theorem claim_C8_counterexample :
    nodesOfResult (generate_flowchart "organic" "us" "artist_label" rightsWs) =
      some ["organic", "mechanical", "PRO", "artist_label"] ∧
    assocJ [("collected_by", Json.str "PRO"), ("payee", Json.str " ")] "payee" =
      some (Json.str " ") ∧
    (" " : String) ≠ "" ∧
    (" " : String) ∉ ["organic", "mechanical", "PRO", "artist_label"] := by
  refine ⟨by decide, rfl, by decide, by decide⟩

/-- C8 (amended): the payee label is the whitespace-stripped payee field
when that is non-empty, else the role; the payee edge leaves the
collector when the stripped collected_by is non-empty and the right node
otherwise; the spec's mechanical example gives the 4-node 3-edge chain
and a no-collector right feeds its payee straight from the right node. -/
theorem claim_C8_payee (source role : String) (mid : Int) (i : Nat)
    (st st2 : GState) (k : String) (info : List (String × Json)) (cb0 py0 : String)
    (h : processRight source role mid i st (k, Json.obj info) = some st2)
    (hcb : getStrField info "collected_by" = some cb0)
    (hpy : getStrField info "payee" = some py0)
    (hna : (assocJ info "fully_not_applicable").isSome = false)
    (hpne : payeeEff role (k, Json.obj info) ≠ "") :
    payeeEff role (k, Json.obj info) =
      (if pyStrip py0 = "" then role else pyStrip py0) ∧
    ((if cbLabelOf (k, Json.obj info) = "" then k else cbLabelOf (k, Json.obj info)),
      payeeEff role (k, Json.obj info)) ∈ st2.edges ∧
    (nodesOfResult (generate_flowchart "organic" "us" "artist_label" rightsMech) =
      some ["organic", "mechanical", "PRO", "artist_label"] ∧
    edgesOfResult (generate_flowchart "organic" "us" "artist_label" rightsMech) =
      some [("organic", "mechanical"), ("mechanical", "PRO"), ("PRO", "artist_label")] ∧
    edgesOfResult (generate_flowchart "organic" "us" "artist_label" rightsNoCb) =
      some [("organic", "sync_fees"), ("sync_fees", "Artist")]) :=
  ⟨payeeEff_eq role k info py0 hpy,
   processRight_payee_edge source role mid i st st2 k info h hna hpne,
   by decide, by decide, by decide⟩

/-- C8 witness: the empty-payee mechanical entry falls back to the
artist_label role and the chain edges close through the collector. -/
theorem claim_C8_witness :
    payeeEff "artist_label" ("mechanical",
      Json.obj [("collected_by", Json.str "PRO"), ("payee", Json.str "")]) =
      "artist_label" ∧
    ("PRO", "artist_label") ∈ (graphOf (generate_flowchart "organic" "us" "artist_label"
      rightsMech)).edges := by
  have hpr : processRight "organic" "artist_label" (midY 1) 0 (initState "organic" (midY 1))
      ("mechanical", Json.obj [("collected_by", Json.str "PRO"), ("payee", Json.str "")]) =
      some (graphOf (generate_flowchart "organic" "us" "artist_label" rightsMech)) := rfl
  have h := claim_C8_payee "organic" "artist_label" (midY 1) 0
    (initState "organic" (midY 1))
    (graphOf (generate_flowchart "organic" "us" "artist_label" rightsMech))
    "mechanical" [("collected_by", Json.str "PRO"), ("payee", Json.str "")] "PRO" ""
    hpr rfl rfl rfl (by decide)
  exact ⟨h.1.trans (by decide), by simpa using h.2.1⟩

/-! ### Claim C10: non-dict right entries are skipped but keep their row -/

/-- C10: a right whose details are not a dict is silently dropped — its
iteration returns the state unchanged, adding no node, edge, color or
position — yet it still consumes its enumeration index and counts in
`len(rights)`: in `rightsMix` the malformed middle entry leaves
"performance" at row 0, "mechanical" at row 2 (y = -4, a blank row at
y = -2), and the source centered over three rows at y = -2. -/
theorem claim_C10_skipped (source role : String) (mid : Int) (i : Nat) (st : GState)
    (k : String) (d : Json) (h : d.isObj = false) :
    processRight source role mid i st (k, d) = some st ∧
    nodesOfResult (generate_flowchart "physical_sales" "us" "artist_label" rightsMix) =
      some ["physical_sales", "performance", "PRO", "Artist", "mechanical", "HFA",
        "Publisher"] ∧
    posOfResult (generate_flowchart "physical_sales" "us" "artist_label" rightsMix)
      "performance" = some (2, 0) ∧
    posOfResult (generate_flowchart "physical_sales" "us" "artist_label" rightsMix)
      "mechanical" = some (2, -4) ∧
    posOfResult (generate_flowchart "physical_sales" "us" "artist_label" rightsMix)
      "physical_sales" = some (0, -2) := by
  refine ⟨processRight_skip source role mid i st k d h, by decide, by decide, by decide,
    by decide⟩

/-- C10 witness: the malformed entry of `rightsMix` at a concrete
state. -/
theorem claim_C10_witness :
    processRight "physical_sales" "artist_label" (-2) 1 (initState "physical_sales" (-2))
      ("bad_right", Json.str "oops") = some (initState "physical_sales" (-2)) :=
  (claim_C10_skipped "physical_sales" "artist_label" (-2) 1 (initState "physical_sales" (-2))
    "bad_right" (Json.str "oops") rfl).1
